import Mathlib

/-!
Shallow embedding of the race-pace projection engine of the fitness-tracker
repository: the grade-adjusted-pace (GAP) calculations
(`src/lib/calculations/gpx/gapCalculations.ts`), the altitude model, the
goal-pace solver (`GoalPaceSolver`) and the lap calculator (`LapCalculator`).
JavaScript numbers are modelled as rationals (ℚ); the JS value `NaN` that
`lookupSpeed` returns out of range is modelled as `Option.none`; array
mutation (`this.downhillAdjustments.push`) is modelled by explicit
state/record passing.
-/

namespace FitnessTracker

/-- `calcDeltaEC` from `gapCalculations.ts`: the Minetti 2002 quintic
polynomial for the added energy cost of running on a grade, in J/kg/m.
`155.4 g⁵ − 30.4 g⁴ − 43.3 g³ + 46.3 g² + 19.5 g` with the decimal
literals written as exact rationals. -/
def calcDeltaEC (grade : ℚ) : ℚ :=
  (777/5) * grade^5 - (152/5) * grade^4 - (433/10) * grade^3
    + (463/10) * grade^2 + (39/2) * grade

/-- Modelled from the spec: the running-economy reference table (§4.3).
The concrete data file `black-gam.ts` (`BLACK_GAM_DATA`) is not among the
available sources; the spec describes it as a fixed monotonic lookup table
of (speed, metabolic cost per distance, metabolic power) triples. -/
structure EconTable where
  speed_m_s : List ℚ
  energy_j_kg_m : List ℚ
  energy_j_kg_s : List ℚ

/-- The two column selectors of `lookupSpeed` in `gapCalculations.ts`. -/
inductive EconColumn
  | energy_j_kg_m
  | energy_j_kg_s

/-- The bracketing-index scan of `lookupSpeed`: the first `i` with
`speed[i] ≤ x ≤ speed[i+1]`; if the scan falls through, `i` ends at
`speed.length − 1` (which in the source leads to an out-of-bounds read
and hence `NaN`). -/
def bracketIdx (speeds : List ℚ) (x : ℚ) : ℕ :=
  ((List.range (speeds.length - 1)).find?
    (fun i => decide ((speeds.getD i 0) ≤ x ∧ x ≤ speeds.getD (i+1) 0))).getD
    (speeds.length - 1)

/-- `lookupSpeed` from `gapCalculations.ts`: bounds check against the first
and last table speed, then linear interpolation between the bracketing rows.
A `NaN` result (out of bounds, or an out-of-range array read) is modelled
as `none`. -/
def lookupSpeed (tbl : EconTable) (speedMs : ℚ) (column : EconColumn) : Option ℚ :=
  let speed := tbl.speed_m_s
  let energy := match column with
    | .energy_j_kg_m => tbl.energy_j_kg_m
    | .energy_j_kg_s => tbl.energy_j_kg_s
  match speed.head?, speed.getLast? with
  | some lo, some hi =>
    if speedMs < lo ∨ speedMs > hi then none
    else
      let i := bracketIdx speed speedMs
      match speed[i]?, speed[i+1]?, energy[i]?, energy[i+1]? with
      | some x0, some x1, some y0, some y1 =>
        some (y0 + (y1 - y0) * ((speedMs - x0) / (x1 - x0)))
      | _, _, _, _ => none
  | _, _ => none

/-- `calculateSpeedOnGrade` from `gapCalculations.ts`: the per-segment
grade adjustment without the downhill cap and altitude steps — flat cost
and power lookups (with the 4 J/kg/m out-of-range default), the Minetti
grade cost, the power-by-cost division, and the bounded linear grade
penalty fallback when that division is non-finite or non-positive
(modelled as `≤ 0`, see `applyGAPAdjustment`). -/
def calculateSpeedOnGrade (tbl : EconTable) (basePaceMs grade : ℚ) : ℚ :=
  let flatCr := (lookupSpeed tbl basePaceMs .energy_j_kg_m).getD 4
  let deltaCr := calcDeltaEC grade
  let totalCr := flatCr + deltaCr
  let targetWkg := (lookupSpeed tbl basePaceMs .energy_j_kg_s).getD (flatCr * basePaceMs)
  let actualSpeed := targetWkg / totalCr
  if actualSpeed ≤ 0 then
    basePaceMs * (1 - max (-(1/2)) (min (4/5) (grade * 10)))
  else actualSpeed

/-- `calculateAltitudePenalty` from `altitudeAdjustment.ts`:
`1 + (segmentElevation − baselineElevation) / 304.8 × 0.01`. -/
def calculateAltitudePenalty (segmentElevation baselineElevation : ℚ) : ℚ :=
  1 + (segmentElevation - baselineElevation) / (1524/5) * (1/100)

/-- `paceToSpeed` (min/km → m/s) from `goalPaceSolver.ts` / `gapCalculations.ts`. -/
def paceToSpeed (paceMinPerKm : ℚ) : ℚ := 1000 / (paceMinPerKm * 60)

/-- `speedToPace` (m/s → min/km). -/
def speedToPace (speedMs : ℚ) : ℚ := 1000 / (speedMs * 60)

/-- `DownhillAdjustment` record from `goalPaceSolver.ts`. -/
structure DownhillAdjustment where
  startDistance : ℚ
  endDistance : ℚ
  grade : ℚ
  theoreticalSpeed : ℚ
  actualSpeed : ℚ
  speedReduction : ℚ
deriving DecidableEq

/-- `ConvergenceStep` record from `goalPaceSolver.ts`. -/
structure ConvergenceStep where
  iteration : ℕ
  basePace : ℚ
  predictedTime : ℚ
  error : ℚ
  errorPercent : ℚ
deriving DecidableEq

/-- `SolverResult` record from `goalPaceSolver.ts`. -/
structure SolverResult where
  basePaceMs : ℚ
  basePaceMinPerKm : ℚ
  finalError : ℚ
  converged : Bool
  iterations : ℕ
  convergenceHistory : List ConvergenceStep
  predictedTime : ℚ
  downhillAdjustments : List DownhillAdjustment
deriving DecidableEq

/-- `GoalPaceSolver`'s mutable fields (`maxIterations = 20`, `tolerance = 1.0`,
the accumulating `downhillAdjustments` array, `baselineElevation`). -/
structure GoalPaceSolver where
  maxIterations : ℕ
  tolerance : ℚ
  downhillAdjustments : List DownhillAdjustment
  baselineElevation : ℚ
deriving DecidableEq

/-- A fresh solver with the source's field initializers
(`maxIterations = 20`, `tolerance = 1.0`, empty adjustment list). -/
def mkSolver (baselineElevation : ℚ) : GoalPaceSolver :=
  ⟨20, 1, [], baselineElevation⟩

/-- `applyDownhillSpeedCap` from `goalPaceSolver.ts`: progressive limitation
for grades below −8% (= −2/25); `maxSteepness` −25%, limitation factor
`1 − steepnessFactor·0.6`, additional `1.5 × basePace` cap, and a final
floor at the base pace. -/
def applyDownhillSpeedCap (theoreticalSpeed basePaceMs grade : ℚ) : ℚ :=
  if -(2/25) ≤ grade then theoreticalSpeed
  else
    let steepnessFactor := max 0 ((grade - (-(2/25))) / ((-(1/4)) - (-(2/25))))
    let limitationFactor := 1 - steepnessFactor * (3/5)
    let maxSafeSpeed := basePaceMs * (3/2)
    let cappedSpeed := min (theoreticalSpeed * limitationFactor) maxSafeSpeed
    max cappedSpeed basePaceMs

/-- `applyGAPAdjustment` from `goalPaceSolver.ts`. Returns the adjusted
speed together with the `DownhillAdjustment` records pushed by this call
(the source pushes them onto `this.downhillAdjustments`). The JS guard
`!Number.isFinite(actualSpeed) || actualSpeed <= 0` is modelled as
`rawSpeed ≤ 0`: over ℚ, division by a zero total cost yields `0`
(where JS yields `±Infinity` or `NaN`), so both sides take the fallback
branch in exactly the same cases. -/
def applyGAPAdjustment (tbl : EconTable) (baselineElevation : ℚ)
    (basePaceMs grade segmentElevation : ℚ)
    (segmentStart segmentEnd : Option ℚ) : ℚ × List DownhillAdjustment :=
  let flatCr := (lookupSpeed tbl basePaceMs .energy_j_kg_m).getD 4
  let deltaCr := calcDeltaEC grade
  let totalCr := flatCr + deltaCr
  let targetWkg := (lookupSpeed tbl basePaceMs .energy_j_kg_s).getD (flatCr * basePaceMs)
  let rawSpeed := targetWkg / totalCr
  let preCapSpeed :=
    if rawSpeed ≤ 0 then
      basePaceMs * (1 - max (-(1/2)) (min (4/5) (grade * 10)))
    else rawSpeed
  let capped :=
    if grade < -(2/25) then
      let originalSpeed := preCapSpeed
      let cappedSpeed := applyDownhillSpeedCap originalSpeed basePaceMs grade
      match segmentStart, segmentEnd with
      | some s, some e =>
        if cappedSpeed < originalSpeed then
          (cappedSpeed,
            [⟨s, e, grade, originalSpeed, cappedSpeed,
              (originalSpeed - cappedSpeed) / originalSpeed * 100⟩])
        else (cappedSpeed, ([] : List DownhillAdjustment))
      | _, _ => (cappedSpeed, [])
    else (preCapSpeed, [])
  let altitudePenalty := calculateAltitudePenalty segmentElevation baselineElevation
  (capped.1 / altitudePenalty, capped.2)

/-- Modelled from the spec: the Route Model interface (§4.1). The source
file `gpxParser.ts` (`GPXParser`) is not among the available sources; the
solver and lap calculator use it only through `totalDistance`, the
distance-weighted `averageGrade`/`averageElevation` queries, and point
elevation interpolation (for lap boundaries). -/
structure Route where
  totalDistance : ℚ
  avgGrade : ℚ → ℚ → ℚ
  avgElevation : ℚ → ℚ → ℚ
  elevationAt : ℚ → ℚ
  elevationGainLoss : ℚ → ℚ → ℚ × ℚ

/-- `LapBoundary` (spec §3 / `gpxParser.ts`, not in sources): lap index,
distance from start, interpolated elevation. -/
structure LapBoundary where
  lapNumber : ℕ
  distance : ℚ
  elevation : ℚ
deriving DecidableEq

/-- Modelled from the spec: `generateLapBoundaries(lapLength)` (§4.1) —
"walk cumulative distance in fixed increments of `lapLength` from 0 to
total distance (plus a final partial lap if total distance is not an exact
multiple), producing one boundary per increment with elevation linearly
interpolated between the two enclosing route points". -/
def generateLapBoundaries (R : Route) (lapLength : ℚ) : List LapBoundary :=
  let m := (⌈R.totalDistance / lapLength⌉).toNat
  (List.range (m + 1)).map fun (i : ℕ) =>
    let d := min ((i : ℚ) * lapLength) R.totalDistance
    ⟨i, d, R.elevationAt d⟩

/-- The number of fixed-length sub-segments the integration loops of
`calculateTotalTime` / `calculateLapTime` walk between two distances:
`⌈(endD − startD) / L⌉` for positive step `L`. -/
def numSegs (startD endD L : ℚ) : ℕ := (⌈(endD - startD) / L⌉).toNat

/-- The sub-segment decomposition walked by the integration loops: the
loop visits `startD, startD+L, …`, each segment ending at
`min (current + L) endD`. -/
def segmentBounds (startD endD L : ℚ) : List (ℚ × ℚ) :=
  (List.range (numSegs startD endD L)).map fun (i : ℕ) =>
    (startD + (i : ℚ) * L, min (startD + ((i : ℚ) + 1) * L) endD)

/-- The adjusted speed of one sub-segment, as computed inside the
integration loops: `applyGAPAdjustment` at the segment's average grade and
elevation, with the segment bounds passed for adjustment tracking. -/
def segSpeed (tbl : EconTable) (baselineElevation : ℚ) (R : Route)
    (basePaceMs : ℚ) (seg : ℚ × ℚ) : ℚ :=
  (applyGAPAdjustment tbl baselineElevation basePaceMs
    (R.avgGrade seg.1 seg.2) (R.avgElevation seg.1 seg.2)
    (some seg.1) (some seg.2)).1

/-- The `DownhillAdjustment` records pushed while processing one sub-segment. -/
def segRecords (tbl : EconTable) (baselineElevation : ℚ) (R : Route)
    (basePaceMs : ℚ) (seg : ℚ × ℚ) : List DownhillAdjustment :=
  (applyGAPAdjustment tbl baselineElevation basePaceMs
    (R.avgGrade seg.1 seg.2) (R.avgElevation seg.1 seg.2)
    (some seg.1) (some seg.2)).2

/-- The total time accumulated by the integration loop between two
distances: `Σ segmentLength / adjustedSpeed` over the sub-segments. This
is the shared loop body of `GoalPaceSolver.calculateTotalTime` and
`LapCalculator.calculateLapTime` (their loop bodies are identical in the
source). -/
def integrateTime (tbl : EconTable) (baselineElevation : ℚ) (R : Route)
    (basePaceMs startD endD L : ℚ) : ℚ :=
  ((segmentBounds startD endD L).map fun seg =>
    (seg.2 - seg.1) / segSpeed tbl baselineElevation R basePaceMs seg).sum

/-- The `DownhillAdjustment` records accumulated by the same loop, in
segment order. -/
def integrateRecords (tbl : EconTable) (baselineElevation : ℚ) (R : Route)
    (basePaceMs startD endD L : ℚ) : List DownhillAdjustment :=
  ((segmentBounds startD endD L).map fun seg =>
    segRecords tbl baselineElevation R basePaceMs seg).flatten

/-- `GoalPaceSolver.calculateTotalTime`: the whole-route integration,
walking `[0, totalDistance)` in `segmentLength` steps. First component:
total time; second: the records pushed by this call. -/
def calculateTotalTime (tbl : EconTable) (baselineElevation : ℚ) (R : Route)
    (basePaceMs segmentLength : ℚ) : ℚ × List DownhillAdjustment :=
  (integrateTime tbl baselineElevation R basePaceMs 0 R.totalDistance segmentLength,
   integrateRecords tbl baselineElevation R basePaceMs 0 R.totalDistance segmentLength)

/-- `LapCalculator.calculateLapTime`: the same integration restricted to
`[startDistance, endDistance)`. -/
def calculateLapTime (tbl : EconTable) (baselineElevation : ℚ) (R : Route)
    (startDistance endDistance basePaceMs segmentLength : ℚ) :
    ℚ × List DownhillAdjustment :=
  (integrateTime tbl baselineElevation R basePaceMs startDistance endDistance segmentLength,
   integrateRecords tbl baselineElevation R basePaceMs startDistance endDistance segmentLength)

/-- The lower speed clamp of the solver loop: `paceToSpeed 12` (12 min/km). -/
def minSpeed : ℚ := paceToSpeed 12

/-- The upper speed clamp of the solver loop: `paceToSpeed 2.5` (2.5 min/km). -/
def maxSpeed : ℚ := paceToSpeed (5/2)

/-- The solver loop's mutable locals: current working pace, iteration
counter, best error/pace seen (`bestError` starts at JS `Infinity`,
modelled as `none`), the convergence history and the accumulated
downhill-adjustment records. -/
structure SolverState where
  basePaceMs : ℚ
  iteration : ℕ
  bestError : Option ℚ
  bestPace : ℚ
  history : List ConvergenceStep
  records : List DownhillAdjustment
deriving DecidableEq

/-- One pass of the body of the `while (iteration < this.maxIterations)`
loop of `findBasePaceForGoalTime`, before the convergence check: evaluate
the current pace, append a `ConvergenceStep`, update the best-seen iterate.
Returns the updated locals together with this pass's error. -/
def solverStep (tbl : EconTable) (baselineElevation : ℚ) (R : Route)
    (goalTimeSeconds segmentLength : ℚ) (s : SolverState) :
    SolverState × ℚ :=
  let pr := calculateTotalTime tbl baselineElevation R s.basePaceMs segmentLength
  let error := pr.1 - goalTimeSeconds
  let step : ConvergenceStep :=
    ⟨s.iteration, speedToPace s.basePaceMs, pr.1, error,
      error / goalTimeSeconds * 100⟩
  let better := match s.bestError with
    | none => true
    | some b => |error| < |b|
  ({ s with
      history := s.history ++ [step]
      records := s.records ++ pr.2
      bestError := if better then some error else s.bestError
      bestPace := if better then s.basePaceMs else s.bestPace }, error)

/-- The damped proportional pace update of the solver loop followed by the
2.5–12 min/km sanity clamp. -/
def solverAdjust (goalTimeSeconds error v : ℚ) : ℚ :=
  let adjusted :=
    if 0 < error then v * (1 + |error| / goalTimeSeconds * (1/2))
    else v * (1 - |error| / goalTimeSeconds * (1/2))
  max minSpeed (min maxSpeed adjusted)

/-- One-to-one embedding of the `while (iteration < this.maxIterations)`
loop of `findBasePaceForGoalTime`, with the remaining iteration budget
(`maxIterations − iteration`) as structural fuel. Each pass runs
`solverStep`, breaks when `|error| ≤ tolerance`, and otherwise applies
`solverAdjust` and increments the counter. -/
def solverLoop (tbl : EconTable) (baselineElevation : ℚ) (R : Route)
    (goalTimeSeconds segmentLength tolerance : ℚ) :
    ℕ → SolverState → SolverState
  | 0, s => s
  | fuel + 1, s =>
    let se := solverStep tbl baselineElevation R goalTimeSeconds segmentLength s
    if |se.2| ≤ tolerance then se.1
    else
      solverLoop tbl baselineElevation R goalTimeSeconds segmentLength tolerance
        fuel { se.1 with
               basePaceMs := solverAdjust goalTimeSeconds se.2 se.1.basePaceMs
               iteration := s.iteration + 1 }

/-- The loop's initial locals: the naive average pace
`goalTime / 60 / (totalDistance / 1000)` converted to m/s (evaluated
unclamped), iteration 0, `bestError = Infinity` (none), empty history and
a freshly reset adjustment list. -/
def solverInit (R : Route) (goalTimeSeconds : ℚ) : SolverState :=
  ⟨paceToSpeed (goalTimeSeconds / 60 / (R.totalDistance / 1000)), 0, none,
    paceToSpeed (goalTimeSeconds / 60 / (R.totalDistance / 1000)), [], []⟩

/-- The after-loop selection of `findBasePaceForGoalTime`: use the best
iterate if it strictly beats the last recorded error, otherwise keep the
working pace. The last-entry read
`convergenceHistory[convergenceHistory.length - 1]` on an empty history
yields `undefined` in JS, making the comparison false; this is modelled
by the fallthrough arm keeping the working pace. -/
def selectBasePace (s : SolverState) : ℚ :=
  match s.bestError, s.history.getLast? with
  | some b, some last => if |b| < |last.error| then s.bestPace else s.basePaceMs
  | _, _ => s.basePaceMs

/-- `GoalPaceSolver.findBasePaceForGoalTime`: resets the adjustment list,
starts from the naive average pace, runs the convergence loop, swaps in
the best iterate when it strictly beats the last recorded error
(`selectBasePace`), recomputes the predicted time at the returned pace,
and assembles the `SolverResult`. Returns the result together with the
solver's final state (whose `downhillAdjustments` array the returned
record aliases in the source). -/
def findBasePaceForGoalTime (solver : GoalPaceSolver) (tbl : EconTable)
    (R : Route) (goalTimeSeconds segmentLength : ℚ) :
    SolverResult × GoalPaceSolver :=
  let s :=
    solverLoop tbl solver.baselineElevation R goalTimeSeconds segmentLength
      solver.tolerance solver.maxIterations (solverInit R goalTimeSeconds)
  let basePaceMs := selectBasePace s
  let (finalPredictedTime, recs2) :=
    calculateTotalTime tbl solver.baselineElevation R basePaceMs segmentLength
  let allRecords := s.records ++ recs2
  (⟨basePaceMs, speedToPace basePaceMs,
    finalPredictedTime - goalTimeSeconds,
    decide (|finalPredictedTime - goalTimeSeconds| ≤ solver.tolerance),
    s.iteration, s.history, finalPredictedTime, allRecords⟩,
   { solver with downhillAdjustments := allRecords })

/-- `LapCalculator.calculateAveragePace`: minutes per kilometre. -/
def calculateAveragePace (distance time : ℚ) : ℚ := time / 60 / (distance / 1000)

/-- `LapCalculator.calculateEffortLevel`: fixed grade-percentage buckets. -/
def calculateEffortLevel (grade : ℚ) : String :=
  let gradePercent := grade * 100
  if 8 < gradePercent then "Very Hard"
  else if 4 < gradePercent then "Hard"
  else if 1 < gradePercent then "Moderate"
  else if -2 < gradePercent then "Easy"
  else if -5 < gradePercent then "Fast"
  else "Very Fast"

/-- `LapCalculator.checkForDownhillSpeedCap`: whether any recorded
adjustment overlaps the lap span (reads the solver's live list). -/
def checkForDownhillSpeedCap (records : List DownhillAdjustment)
    (startDistance endDistance : ℚ) : Bool :=
  records.any fun adj =>
    decide (adj.startDistance < endDistance ∧ startDistance < adj.endDistance)

/-- `LapSplit` record from `lapCalculator.ts`. -/
structure LapSplit where
  lapNumber : ℕ
  startDistance : ℚ
  endDistance : ℚ
  lapDistance : ℚ
  lapTime : ℚ
  cumulativeTime : ℚ
  startElevation : ℚ
  endElevation : ℚ
  elevationChange : ℚ
  elevationGain : ℚ
  elevationLoss : ℚ
  averageGrade : ℚ
  averageElevation : ℚ
  averagePace : ℚ
  effortLevel : String
  hasDownhillSpeedCap : Bool
deriving DecidableEq

/-- The loop of `LapCalculator.calculateDetailedSplits` over consecutive
lap-boundary pairs, threading the cumulative time and the solver's live
adjustment list (which each `calculateLapTime` call extends before
`checkForDownhillSpeedCap` reads it). -/
def detailedSplitsAux (tbl : EconTable) (baselineElevation : ℚ) (R : Route)
    (basePaceMs segmentLength : ℚ) :
    List (LapBoundary × LapBoundary) → ℕ → ℚ → List DownhillAdjustment →
    List LapSplit × List DownhillAdjustment
  | [], _, _, recs => ([], recs)
  | (lapStart, lapEnd) :: rest, i, cumTime, recs =>
    let lapDistance := lapEnd.distance - lapStart.distance
    let (lapTime, newRecs) :=
      calculateLapTime tbl baselineElevation R lapStart.distance lapEnd.distance
        basePaceMs segmentLength
    let recs1 := recs ++ newRecs
    let cum1 := cumTime + lapTime
    let averageGrade := R.avgGrade lapStart.distance lapEnd.distance
    let averageElevation := R.avgElevation lapStart.distance lapEnd.distance
    let gl := R.elevationGainLoss lapStart.distance lapEnd.distance
    let split : LapSplit :=
      ⟨i, lapStart.distance, lapEnd.distance, lapDistance, lapTime, cum1,
        lapStart.elevation, lapEnd.elevation,
        lapEnd.elevation - lapStart.elevation, gl.1, gl.2,
        averageGrade, averageElevation,
        calculateAveragePace lapDistance lapTime,
        calculateEffortLevel averageGrade,
        checkForDownhillSpeedCap recs1 lapStart.distance lapEnd.distance⟩
    let restResult :=
      detailedSplitsAux tbl baselineElevation R basePaceMs segmentLength
        rest (i + 1) cum1 recs1
    (split :: restResult.1, restResult.2)

/-- `LapCalculator.calculateDetailedSplits`: one split per consecutive
boundary pair, lap numbers starting at 1. -/
def calculateDetailedSplits (tbl : EconTable) (baselineElevation : ℚ)
    (R : Route) (basePaceMs segmentLength : ℚ)
    (boundaries : List LapBoundary) (records0 : List DownhillAdjustment) :
    List LapSplit × List DownhillAdjustment :=
  detailedSplitsAux tbl baselineElevation R basePaceMs segmentLength
    (boundaries.zip boundaries.tail) 1 0 records0

/-- `LAP_DISTANCES` from `lapCalculator.ts`; `none` for an unsupported key
(where the source throws `Unsupported lap interval`). -/
def LAP_DISTANCES (key : String) : Option ℚ :=
  if key = "400m" then some 400
  else if key = "1000m" then some 1000
  else if key = "1km" then some 1000
  else if key = "1mile" then some (201168/125)
  else if key = "5000m" then some 5000
  else if key = "5km" then some 5000
  else none

/-- `LapCalculator.calculateLapSplits`: solve for the base pace, generate
lap boundaries, and compute the detailed splits (the route-analysis and
route-stats summaries, which no claim concerns, are omitted). Returns the
`SolverResult`, the splits, and the solver's final state — in the source
the result's `downhillAdjustments` field aliases the solver's live array,
so the list observable through the result after this call is the final
state's. -/
def calculateLapSplits (solver : GoalPaceSolver) (tbl : EconTable) (R : Route)
    (goalTimeSeconds : ℚ) (lapInterval : String) (segmentLength : ℚ) :
    Option (SolverResult × List LapSplit × GoalPaceSolver) :=
  match LAP_DISTANCES lapInterval with
  | none => none
  | some lapDistance =>
    let res := findBasePaceForGoalTime solver tbl R goalTimeSeconds segmentLength
    let solverResult := res.1
    let solver1 := res.2
    let lapBoundaries := generateLapBoundaries R lapDistance
    let splits :=
      calculateDetailedSplits tbl solver1.baselineElevation R
        solverResult.basePaceMs segmentLength lapBoundaries
        solver1.downhillAdjustments
    some (solverResult, splits.1, { solver1 with downhillAdjustments := splits.2 })

/-- Modelled from the spec: a concrete economy table in the shape §4.3
describes — speeds 2–6 m/s, a cost column (constant 4 J/kg/m) and the
induced metabolic-power column `4 × speed`, monotone in speed. The
product's actual `BLACK_GAM_DATA` values are not among the sources. -/
def modelTable : EconTable :=
  ⟨[2, 3, 4, 5, 6], [4, 4, 4, 4, 4], [8, 12, 16, 20, 24]⟩

/-- A route whose elevation rises linearly from `e0` to `e0 + rise` over
total distance `D`: every span has grade `rise / D`, the distance-weighted
average elevation of a span is its midpoint value. -/
def mkLinearRoute (D e0 rise : ℚ) : Route :=
  ⟨D,
    fun _ _ => rise / D,
    fun s e => e0 + rise * (s + e) / (2 * D),
    fun d => e0 + rise * d / D,
    fun s e =>
      if 0 ≤ rise then (rise * (e - s) / D, 0) else (0, -(rise * (e - s) / D))⟩

/-- A constant-elevation route of total distance `D` at elevation 0. -/
def flatRoute (D : ℚ) : Route := mkLinearRoute D 0 0

/-- Piecewise-linear elevation profile: flat at 0 up to 1650 m, then a
1 m rise over the final 50 m (grade 2%). -/
def elev1700 (d : ℚ) : ℚ := if d ≤ 1650 then 0 else (d - 1650) / 50

/-- Antiderivative of `elev1700` (for distance-weighted mean elevation). -/
def intElev1700 (d : ℚ) : ℚ := if d ≤ 1650 then 0 else (d - 1650)^2 / 100

/-- A 1700 m route with the `elev1700` profile: average grade and average
elevation of a span are the exact distance-weighted means. -/
def route1700 : Route :=
  ⟨1700,
    fun s e => (elev1700 e - elev1700 s) / (e - s),
    fun s e => (intElev1700 e - intElev1700 s) / (e - s),
    elev1700,
    fun s e => (elev1700 e - elev1700 s, 0)⟩

/-- A small economy table whose cost column is low enough for the
steep-downhill fallback of `calculateSpeedOnGrade` to actually trigger:
speeds 1–2 m/s, cost 1 J/kg/m, power equal to speed. -/
def lowCostTable : EconTable := ⟨[1, 2], [1, 1], [1, 2]⟩

/-- A steep uphill route (100 m with 400 m of climb) on which the solver
exhausts all 20 iterations with monotonically shrinking but
never-in-tolerance errors. -/
def routeSteep : Route := mkLinearRoute 100 0 400

/-- A gentle 1% uphill route of 100 m, used to probe the solver's
convergence threshold in the goal time. -/
def routeC8 : Route := mkLinearRoute 100 0 1

/-! ## Helper lemmas -/

/-- The quartic factor of the Minetti polynomial is nonnegative on
nonnegative grades. -/
lemma minettiQuartic_nonneg (g : ℚ) (hg : 0 ≤ g) :
    0 ≤ (777/5) * g^4 - (152/5) * g^3 - (433/10) * g^2 + (463/10) * g + 39/2 := by
  nlinarith [sq_nonneg (g^2 - g), sq_nonneg (g^2 - 21/100), sq_nonneg g,
    mul_nonneg hg hg, sq_nonneg (g - 1)]

/-- The Minetti excess cost is nonnegative on nonnegative grades. -/
lemma calcDeltaEC_nonneg (g : ℚ) (hg : 0 ≤ g) : 0 ≤ calcDeltaEC g := by
  have h := minettiQuartic_nonneg g hg
  have : calcDeltaEC g
      = g * ((777/5) * g^4 - (152/5) * g^3 - (433/10) * g^2 + (463/10) * g + 39/2) := by
    unfold calcDeltaEC; ring
  rw [this]
  exact mul_nonneg hg h

/-- For grades below the −8% threshold the downhill cap never returns less
than the base pace. -/
lemma applyDownhillSpeedCap_ge_base (t b g : ℚ) (hg : g < -(2/25)) :
    b ≤ applyDownhillSpeedCap t b g := by
  unfold applyDownhillSpeedCap
  rw [if_neg (by linarith)]
  exact le_max_right _ _

/-- For grades below the −8% threshold the downhill cap keeps the result
between the base pace and `1.5 ×` the base pace. -/
lemma applyDownhillSpeedCap_bounds (t b g : ℚ) (hb : 0 < b) (hg : g < -(2/25)) :
    b ≤ applyDownhillSpeedCap t b g ∧ applyDownhillSpeedCap t b g ≤ b * (3/2) := by
  refine ⟨applyDownhillSpeedCap_ge_base t b g hg, ?_⟩
  unfold applyDownhillSpeedCap
  rw [if_neg (by linarith)]
  exact max_le (le_trans (min_le_right _ _) (le_refl _)) (by linarith)

/-- Unfolding lemma: `calculateSpeedOnGrade` is the power-by-cost division
with the bounded linear fallback on a non-positive quotient. -/
lemma calculateSpeedOnGrade_eq (tbl : EconTable) (b g : ℚ) :
    calculateSpeedOnGrade tbl b g
      = if (lookupSpeed tbl b .energy_j_kg_s).getD ((lookupSpeed tbl b .energy_j_kg_m).getD 4 * b) /
            ((lookupSpeed tbl b .energy_j_kg_m).getD 4 + calcDeltaEC g) ≤ 0
        then b * (1 - max (-(1/2)) (min (4/5) (g * 10)))
        else (lookupSpeed tbl b .energy_j_kg_s).getD ((lookupSpeed tbl b .energy_j_kg_m).getD 4 * b) /
            ((lookupSpeed tbl b .energy_j_kg_m).getD 4 + calcDeltaEC g) := rfl

/-- Both branches of `calculateSpeedOnGrade` are positive for a positive
base pace. -/
lemma calculateSpeedOnGrade_pos (tbl : EconTable) (b g : ℚ) (hb : 0 < b) :
    0 < calculateSpeedOnGrade tbl b g := by
  rw [calculateSpeedOnGrade_eq]
  split_ifs with h
  · have hcl : max (-(1/2)) (min (4/5) (g * 10)) ≤ 4/5 :=
      max_le (by norm_num) (min_le_left _ _)
    nlinarith
  · exact lt_of_not_le h

/-- The adjusted speed returned by `applyGAPAdjustment` is the
grade-adjusted speed, capped when the grade is below −8%, divided by the
altitude penalty. -/
lemma applyGAPAdjustment_fst (tbl : EconTable) (be b g elev : ℚ)
    (sS sE : Option ℚ) :
    (applyGAPAdjustment tbl be b g elev sS sE).1
      = (if g < -(2/25) then
          applyDownhillSpeedCap (calculateSpeedOnGrade tbl b g) b g
         else calculateSpeedOnGrade tbl b g) / calculateAltitudePenalty elev be := by
  rcases sS with _ | s <;> rcases sE with _ | e <;>
    simp only [applyGAPAdjustment, calculateSpeedOnGrade] <;>
    split_ifs <;> rfl

/-- Every record pushed by one `applyGAPAdjustment` call documents a
strict reduction of the grade-adjusted speed by the downhill cap at a
grade below −8%. -/
lemma applyGAPAdjustment_mem_snd {tbl : EconTable} {be b g elev : ℚ}
    {sS sE : Option ℚ} {r : DownhillAdjustment}
    (hr : r ∈ (applyGAPAdjustment tbl be b g elev sS sE).2) :
    g < -(2/25)
    ∧ r.theoreticalSpeed = calculateSpeedOnGrade tbl b g
    ∧ r.actualSpeed = applyDownhillSpeedCap (calculateSpeedOnGrade tbl b g) b g
    ∧ r.actualSpeed < r.theoreticalSpeed := by
  rw [calculateSpeedOnGrade_eq]
  rcases sS with _ | s <;> rcases sE with _ | e <;>
    simp only [applyGAPAdjustment] at hr <;>
    split_ifs at hr ⊢ with h1 h2 h3 <;>
    simp only [List.mem_singleton, List.not_mem_nil] at hr <;>
    (subst hr; exact ⟨by assumption, rfl, rfl, by assumption⟩)

/-! ## Claim C2 -/

/-- Claim C2, counterexample: at grade −30% (steeper than −25%), with
theoretical speed 5 and base pace 1, `applyDownhillSpeedCap` returns
19/17, a speed reduction of 66/85 ≈ 77.6% — strictly more than the 60%
maximum reduction the claim asserts for every grade steeper than −25%
(under the claimed behaviour the result would be
`max (min (0.4·5) 1.5) 1 = 1.5`). -/
theorem C2_counterexample :
    applyDownhillSpeedCap 5 1 (-(3/10)) = 19/17
    ∧ (5 - applyDownhillSpeedCap 5 1 (-(3/10))) / 5 > 3/5
    ∧ applyDownhillSpeedCap 5 1 (-(3/10)) ≠ max (min ((1 - 3/5) * 5) (1 * (3/2))) 1 := by
  refine ⟨?_, ?_, ?_⟩ <;> · unfold applyDownhillSpeedCap; norm_num

/-- Claim C2, amended: for every theoretical speed, every positive base
pace and every grade strictly below −8%, the cap multiplies the
theoretical speed by the limitation factor
`1 − 0.6 · (grade + 8%)/(−17%)`, which scales linearly in steepness and
reaches a 60% reduction at −25% grade; below −25% the steepness factor is
not clamped, so the factor keeps shrinking linearly (reduction exceeding
60%), while for grades in [−25%, −8%) it stays between 40% and 100%;
the result is additionally capped at 1.5 × base pace and floored at the
base pace itself. -/
theorem C2_downhill_cap_unclamped_beyond_max (t b g : ℚ)
    (hb : 0 < b) (hg : g < -(2/25)) :
    applyDownhillSpeedCap t b g
      = max (min (t * (1 - (g - (-(2/25))) / ((-(1/4)) - (-(2/25))) * (3/5))) (b * (3/2))) b
    ∧ b ≤ applyDownhillSpeedCap t b g
    ∧ applyDownhillSpeedCap t b g ≤ b * (3/2)
    ∧ (g < -(1/4) →
        1 - (g - (-(2/25))) / ((-(1/4)) - (-(2/25))) * (3/5) < 2/5)
    ∧ (-(1/4) ≤ g →
        2/5 ≤ 1 - (g - (-(2/25))) / ((-(1/4)) - (-(2/25))) * (3/5)
        ∧ 1 - (g - (-(2/25))) / ((-(1/4)) - (-(2/25))) * (3/5) ≤ 1) := by
  have hsteep : (0:ℚ) ≤ (g - (-(2/25))) / ((-(1/4)) - (-(2/25))) := by
    have h1 : g - (-(2/25)) < 0 := by linarith
    have h2 : ((-(1/4)) - (-(2/25)) : ℚ) = -(17/100) := by norm_num
    rw [h2]
    have : (g - (-(2/25))) / (-(17/100)) = (g - (-(2/25))) * (-(100/17)) := by ring
    rw [this]
    nlinarith
  obtain ⟨hlow, hhigh⟩ := applyDownhillSpeedCap_bounds t b g hb hg
  refine ⟨?_, hlow, hhigh, ?_, ?_⟩
  · unfold applyDownhillSpeedCap
    rw [if_neg (by linarith), max_eq_right hsteep]
  · intro h
    have h2 : ((-(1/4)) - (-(2/25)) : ℚ) = -(17/100) := by norm_num
    rw [h2]
    have h3 : (g - (-(2/25))) / (-(17/100)) = (g - (-(2/25))) * (-(100/17)) := by ring
    rw [h3]
    nlinarith
  · intro h
    have h2 : ((-(1/4)) - (-(2/25)) : ℚ) = -(17/100) := by norm_num
    rw [h2]
    have h3 : (g - (-(2/25))) / (-(17/100)) = (g - (-(2/25))) * (-(100/17)) := by ring
    rw [h3]
    constructor <;> nlinarith

/-- Witness for the amended C2 at theoretical speed 5, base pace 1,
grade −30%. -/
theorem C2_witness :
    (0:ℚ) < 1 ∧ (-(3/10) : ℚ) < -(2/25)
    ∧ (applyDownhillSpeedCap 5 1 (-(3/10))
        = max (min (5 * (1 - ((-(3/10)) - (-(2/25))) / ((-(1/4)) - (-(2/25))) * (3/5))) (1 * (3/2))) 1
      ∧ (1:ℚ) ≤ applyDownhillSpeedCap 5 1 (-(3/10))
      ∧ applyDownhillSpeedCap 5 1 (-(3/10)) ≤ 1 * (3/2)
      ∧ ((-(3/10) : ℚ) < -(1/4) →
          (1:ℚ) - ((-(3/10)) - (-(2/25))) / ((-(1/4)) - (-(2/25))) * (3/5) < 2/5)
      ∧ ((-(1/4) : ℚ) ≤ -(3/10) →
          (2/5 : ℚ) ≤ 1 - ((-(3/10)) - (-(2/25))) / ((-(1/4)) - (-(2/25))) * (3/5)
          ∧ (1:ℚ) - ((-(3/10)) - (-(2/25))) / ((-(1/4)) - (-(2/25))) * (3/5) ≤ 1)) :=
  ⟨by norm_num, by norm_num,
    C2_downhill_cap_unclamped_beyond_max 5 1 (-(3/10)) (by norm_num) (by norm_num)⟩

/-! ## Claim C4 -/

/-- Claim C4: in the per-segment adjustment, with a positive base pace and
positive cost/power lookups, whenever the division of target metabolic
power by total cost yields a non-positive (in JS: non-finite or
non-positive) speed, the result falls back to the base speed scaled by
`1 − clamp(10·grade, −1/2, 4/5)`, and the induced relative speed change
`(result − base)/base` lies within [−50%, +80%] (the trigger forces the
grade below +5%, so the −80% end of the formula's range is unreachable). -/
theorem C4_fallback_bounded (tbl : EconTable) (basePaceMs grade : ℚ)
    (hb : 0 < basePaceMs)
    (hcost : 0 < (lookupSpeed tbl basePaceMs .energy_j_kg_m).getD 4)
    (hpow : 0 < (lookupSpeed tbl basePaceMs .energy_j_kg_s).getD
      ((lookupSpeed tbl basePaceMs .energy_j_kg_m).getD 4 * basePaceMs))
    (htrig : (lookupSpeed tbl basePaceMs .energy_j_kg_s).getD
        ((lookupSpeed tbl basePaceMs .energy_j_kg_m).getD 4 * basePaceMs) /
      ((lookupSpeed tbl basePaceMs .energy_j_kg_m).getD 4 + calcDeltaEC grade) ≤ 0) :
    calculateSpeedOnGrade tbl basePaceMs grade
      = basePaceMs * (1 - max (-(1/2)) (min (4/5) (grade * 10)))
    ∧ -(1/2) ≤ (calculateSpeedOnGrade tbl basePaceMs grade - basePaceMs) / basePaceMs
    ∧ (calculateSpeedOnGrade tbl basePaceMs grade - basePaceMs) / basePaceMs ≤ 4/5 := by
  set F := (lookupSpeed tbl basePaceMs .energy_j_kg_m).getD 4 with hF
  set W := (lookupSpeed tbl basePaceMs .energy_j_kg_s).getD (F * basePaceMs) with hW
  have heq : calculateSpeedOnGrade tbl basePaceMs grade
      = basePaceMs * (1 - max (-(1/2)) (min (4/5) (grade * 10))) := by
    rw [calculateSpeedOnGrade_eq, ← hF, ← hW, if_pos htrig]
  -- the trigger forces a nonpositive total cost, hence a negative grade cost
  have htc : F + calcDeltaEC grade ≤ 0 := by
    by_contra h
    push_neg at h
    exact absurd (div_pos hpow h) (not_lt.mpr htrig)
  have hdec : calcDeltaEC grade < 0 := by linarith
  -- hence the grade is below +5% (the excess cost is nonnegative at ≥ 0)
  have hglt : grade < 1/20 := by
    by_contra h
    push_neg at h
    exact absurd hdec (not_lt.mpr (calcDeltaEC_nonneg grade (by linarith)))
  have hclamp_hi : max (-(1/2)) (min (4/5) (grade * 10)) ≤ 1/2 :=
    max_le (by norm_num) (le_trans (min_le_right _ _) (by linarith))
  have hclamp_lo : -(1/2) ≤ max (-(1/2)) (min (4/5) (grade * 10)) := le_max_left _ _
  have hchange : (calculateSpeedOnGrade tbl basePaceMs grade - basePaceMs) / basePaceMs
      = -(max (-(1/2)) (min (4/5) (grade * 10))) := by
    rw [heq]
    field_simp
    ring
  refine ⟨heq, ?_, ?_⟩ <;> rw [hchange] <;> linarith

/-- Witness for C4 at `lowCostTable`, base pace 1 m/s, grade −20%:
total cost `1 + calcDeltaEC (−1/5) < 0` makes the division negative, and
the fallback multiplies the base pace by 1.5 (a +50% change). -/
theorem C4_witness :
    (0:ℚ) < 1
    ∧ 0 < (lookupSpeed lowCostTable 1 .energy_j_kg_m).getD 4
    ∧ 0 < (lookupSpeed lowCostTable 1 .energy_j_kg_s).getD
        ((lookupSpeed lowCostTable 1 .energy_j_kg_m).getD 4 * 1)
    ∧ (lookupSpeed lowCostTable 1 .energy_j_kg_s).getD
        ((lookupSpeed lowCostTable 1 .energy_j_kg_m).getD 4 * 1) /
        ((lookupSpeed lowCostTable 1 .energy_j_kg_m).getD 4 + calcDeltaEC (-(1/5))) ≤ 0
    ∧ (calculateSpeedOnGrade lowCostTable 1 (-(1/5))
        = 1 * (1 - max (-(1/2)) (min (4/5) ((-(1/5)) * 10)))
      ∧ -(1/2) ≤ (calculateSpeedOnGrade lowCostTable 1 (-(1/5)) - 1) / 1
      ∧ (calculateSpeedOnGrade lowCostTable 1 (-(1/5)) - 1) / 1 ≤ 4/5) :=
  ⟨by norm_num, by with_unfolding_all decide, by with_unfolding_all decide,
    by with_unfolding_all decide,
    C4_fallback_bounded lowCostTable 1 (-(1/5)) (by norm_num)
      (by with_unfolding_all decide) (by with_unfolding_all decide)
      (by with_unfolding_all decide)⟩

/-! ## Claim C5 -/

/-- Claim C5: for every positive base pace, grade in [−1, 1], and segment
and baseline elevations with a positive altitude-penalty factor,
`applyGAPAdjustment` returns a strictly positive (hence finite) speed,
for every economy table and any segment bounds: the out-of-range lookups,
the non-positive division, the downhill cap and the altitude division are
all recovered internally. -/
theorem C5_applyGAPAdjustment_pos (tbl : EconTable)
    (baselineElevation basePaceMs grade segmentElevation : ℚ)
    (segmentStart segmentEnd : Option ℚ)
    (hb : 0 < basePaceMs) (hg1 : -1 ≤ grade) (hg2 : grade ≤ 1)
    (hpen : 0 < calculateAltitudePenalty segmentElevation baselineElevation) :
    0 < (applyGAPAdjustment tbl baselineElevation basePaceMs grade
          segmentElevation segmentStart segmentEnd).1 := by
  rw [applyGAPAdjustment_fst]
  refine div_pos ?_ hpen
  by_cases hcap : grade < -(2/25)
  · rw [if_pos hcap]
    exact lt_of_lt_of_le hb
      (applyDownhillSpeedCap_ge_base (calculateSpeedOnGrade tbl basePaceMs grade)
        basePaceMs grade hcap)
  · rw [if_neg hcap]
    exact calculateSpeedOnGrade_pos tbl basePaceMs grade hb

/-- Witness for C5 at the modelled table, baseline 0, base pace 3 m/s,
grade −20%, segment elevation 10 m. -/
theorem C5_witness :
    (0:ℚ) < 3 ∧ (-1 : ℚ) ≤ -(1/5) ∧ (-(1/5) : ℚ) ≤ 1
    ∧ 0 < calculateAltitudePenalty 10 0
    ∧ 0 < (applyGAPAdjustment modelTable 0 3 (-(1/5)) 10 (some 0) (some 50)).1 :=
  ⟨by norm_num, by norm_num, by norm_num,
    by with_unfolding_all decide,
    C5_applyGAPAdjustment_pos modelTable 0 3 (-(1/5)) 10 (some 0) (some 50)
      (by norm_num) (by norm_num) (by norm_num)
      (by with_unfolding_all decide)⟩

/-! ## Solver loop lemmas -/

lemma solverLoop_succ (tbl : EconTable) (be : ℚ) (R : Route)
    (g L tol : ℚ) (fuel : ℕ) (s : SolverState) :
    solverLoop tbl be R g L tol (fuel + 1) s
      = if |(solverStep tbl be R g L s).2| ≤ tol then (solverStep tbl be R g L s).1
        else solverLoop tbl be R g L tol fuel
          { (solverStep tbl be R g L s).1 with
            basePaceMs :=
              solverAdjust g (solverStep tbl be R g L s).2
                (solverStep tbl be R g L s).1.basePaceMs
            iteration := s.iteration + 1 } := rfl

lemma solverStep_fst_basePaceMs (tbl : EconTable) (be : ℚ) (R : Route)
    (g L : ℚ) (s : SolverState) :
    (solverStep tbl be R g L s).1.basePaceMs = s.basePaceMs := rfl

lemma solverStep_fst_iteration (tbl : EconTable) (be : ℚ) (R : Route)
    (g L : ℚ) (s : SolverState) :
    (solverStep tbl be R g L s).1.iteration = s.iteration := rfl

lemma solverStep_fst_history (tbl : EconTable) (be : ℚ) (R : Route)
    (g L : ℚ) (s : SolverState) :
    (solverStep tbl be R g L s).1.history
      = s.history ++ [⟨s.iteration, speedToPace s.basePaceMs,
          (calculateTotalTime tbl be R s.basePaceMs L).1,
          (calculateTotalTime tbl be R s.basePaceMs L).1 - g,
          ((calculateTotalTime tbl be R s.basePaceMs L).1 - g) / g * 100⟩] := rfl

lemma solverStep_fst_records (tbl : EconTable) (be : ℚ) (R : Route)
    (g L : ℚ) (s : SolverState) :
    (solverStep tbl be R g L s).1.records
      = s.records ++ (calculateTotalTime tbl be R s.basePaceMs L).2 := rfl

lemma solverStep_snd (tbl : EconTable) (be : ℚ) (R : Route)
    (g L : ℚ) (s : SolverState) :
    (solverStep tbl be R g L s).2
      = (calculateTotalTime tbl be R s.basePaceMs L).1 - g := rfl

lemma findBasePace_result (solver : GoalPaceSolver) (tbl : EconTable)
    (R : Route) (T L : ℚ) :
    (findBasePaceForGoalTime solver tbl R T L).1
      = ⟨selectBasePace (solverLoop tbl solver.baselineElevation R T L
            solver.tolerance solver.maxIterations (solverInit R T)),
         speedToPace (selectBasePace (solverLoop tbl solver.baselineElevation R T L
            solver.tolerance solver.maxIterations (solverInit R T))),
         (calculateTotalTime tbl solver.baselineElevation R
            (selectBasePace (solverLoop tbl solver.baselineElevation R T L
              solver.tolerance solver.maxIterations (solverInit R T))) L).1 - T,
         decide (|(calculateTotalTime tbl solver.baselineElevation R
            (selectBasePace (solverLoop tbl solver.baselineElevation R T L
              solver.tolerance solver.maxIterations (solverInit R T))) L).1 - T|
            ≤ solver.tolerance),
         (solverLoop tbl solver.baselineElevation R T L
            solver.tolerance solver.maxIterations (solverInit R T)).iteration,
         (solverLoop tbl solver.baselineElevation R T L
            solver.tolerance solver.maxIterations (solverInit R T)).history,
         (calculateTotalTime tbl solver.baselineElevation R
            (selectBasePace (solverLoop tbl solver.baselineElevation R T L
              solver.tolerance solver.maxIterations (solverInit R T))) L).1,
         (solverLoop tbl solver.baselineElevation R T L
            solver.tolerance solver.maxIterations (solverInit R T)).records
           ++ (calculateTotalTime tbl solver.baselineElevation R
              (selectBasePace (solverLoop tbl solver.baselineElevation R T L
                solver.tolerance solver.maxIterations (solverInit R T))) L).2⟩ := rfl

/-- Record bounds at the creation site: every record pushed by one
`applyGAPAdjustment` call has `actualSpeed ≤ theoreticalSpeed` and
`actualSpeed ≥` the base pace of the call. -/
lemma applyGAPAdjustment_record_bounds {tbl : EconTable} {be b g elev : ℚ}
    {sS sE : Option ℚ} {r : DownhillAdjustment}
    (hr : r ∈ (applyGAPAdjustment tbl be b g elev sS sE).2) :
    r.actualSpeed ≤ r.theoreticalSpeed ∧ b ≤ r.actualSpeed := by
  obtain ⟨hg, ht, ha, hlt⟩ := applyGAPAdjustment_mem_snd hr
  refine ⟨le_of_lt hlt, ?_⟩
  rw [ha]
  exact applyDownhillSpeedCap_ge_base _ b g hg

/-- The same bounds for every record accumulated by one integration walk. -/
lemma integrateRecords_record_bounds {tbl : EconTable} {be : ℚ} {R : Route}
    {b sD eD L : ℚ} {r : DownhillAdjustment}
    (hr : r ∈ integrateRecords tbl be R b sD eD L) :
    r.actualSpeed ≤ r.theoreticalSpeed ∧ b ≤ r.actualSpeed := by
  unfold integrateRecords at hr
  rw [List.mem_flatten] at hr
  obtain ⟨l, hl, hrl⟩ := hr
  rw [List.mem_map] at hl
  obtain ⟨seg, _, rfl⟩ := hl
  exact applyGAPAdjustment_record_bounds hrl

/-- Any per-record property that holds for every integration record (at
every working pace) is an invariant of the solver loop's record list. -/
lemma solverLoop_records_invariant {P : DownhillAdjustment → Prop}
    (tbl : EconTable) (be : ℚ) (R : Route) (g L tol : ℚ)
    (hP : ∀ v r, r ∈ integrateRecords tbl be R v 0 R.totalDistance L → P r) :
    ∀ (fuel : ℕ) (s : SolverState), (∀ r ∈ s.records, P r) →
      ∀ r ∈ (solverLoop tbl be R g L tol fuel s).records, P r := by
  intro fuel
  induction fuel with
  | zero => intro s hs; exact hs
  | succ n ih =>
    intro s hs r hr
    rw [solverLoop_succ] at hr
    by_cases hc : |(solverStep tbl be R g L s).2| ≤ tol
    · rw [if_pos hc, solverStep_fst_records, List.mem_append] at hr
      rcases hr with h | h
      · exact hs r h
      · exact hP s.basePaceMs r h
    · rw [if_neg hc] at hr
      refine ih _ ?_ r hr
      intro r' hr'
      rw [solverStep_fst_records, List.mem_append] at hr'
      rcases hr' with h | h
      · exact hs r' h
      · exact hP s.basePaceMs r' h

/-! ## Claim C6 -/

/-- Claim C6: every `DownhillAdjustment` record produced during a solver
or lap computation satisfies `actualSpeed ≤ theoreticalSpeed`, and
`actualSpeed` is at least the base-pace speed in effect when the record
was created: (1) at the creation site (`applyGAPAdjustment`), (2) for
every record of a lap-time integration at base pace `b`, and (3) for
every record in a returned `SolverResult` (where different records may
stem from different trial paces, so only the first inequality is stated
there). -/
theorem C6_downhill_adjustment_invariant :
    (∀ (tbl : EconTable) (be b g elev : ℚ) (sS sE : Option ℚ)
        (r : DownhillAdjustment),
      r ∈ (applyGAPAdjustment tbl be b g elev sS sE).2 →
        r.actualSpeed ≤ r.theoreticalSpeed ∧ b ≤ r.actualSpeed)
    ∧ (∀ (tbl : EconTable) (be : ℚ) (R : Route) (sD eD b L : ℚ)
        (r : DownhillAdjustment),
      r ∈ (calculateLapTime tbl be R sD eD b L).2 →
        r.actualSpeed ≤ r.theoreticalSpeed ∧ b ≤ r.actualSpeed)
    ∧ (∀ (solver : GoalPaceSolver) (tbl : EconTable) (R : Route) (T L : ℚ)
        (r : DownhillAdjustment),
      r ∈ (findBasePaceForGoalTime solver tbl R T L).1.downhillAdjustments →
        r.actualSpeed ≤ r.theoreticalSpeed) := by
  refine ⟨fun tbl be b g elev sS sE r hr => applyGAPAdjustment_record_bounds hr,
    fun tbl be R sD eD b L r hr => integrateRecords_record_bounds hr,
    fun solver tbl R T L r hr => ?_⟩
  rw [findBasePace_result, List.mem_append] at hr
  rcases hr with h | h
  · exact solverLoop_records_invariant tbl solver.baselineElevation R T L
      solver.tolerance
      (fun v r' hr' => (integrateRecords_record_bounds hr').1)
      solver.maxIterations (solverInit R T) (by intro r' hr'; cases hr') r h
  · exact (integrateRecords_record_bounds h).1

set_option maxRecDepth 2000 in
/-- Witness for C6: the record pushed at base pace 3 m/s, grade −20%,
segment [0, 50] has `actualSpeed = 1225000/389589 ≈ 3.14` between the
base pace 3 and the theoretical `125000/22917 ≈ 5.45`. -/
theorem C6_witness :
    (1225000/389589 : ℚ) ≤ 125000/22917 ∧ (3:ℚ) ≤ 1225000/389589 :=
  C6_downhill_adjustment_invariant.1 modelTable 0 3 (-(1/5)) 10 (some 0) (some 50)
    ⟨0, 50, -(1/5), 125000/22917, 1225000/389589, 720/17⟩
    (by
      have hlist : (applyGAPAdjustment modelTable 0 3 (-(1/5)) 10
            (some 0) (some 50)).2
          = [⟨0, 50, -(1/5), 125000/22917, 1225000/389589, 720/17⟩] := by
        with_unfolding_all rfl
      rw [hlist]
      exact List.mem_singleton.mpr rfl)

/-! ## Claim C3 -/

lemma minSpeed_eq : minSpeed = 25/18 := by norm_num [minSpeed, paceToSpeed]

lemma maxSpeed_eq : maxSpeed = 20/3 := by norm_num [maxSpeed, paceToSpeed]

/-- A speed inside the clamp envelope converts to a pace between
2.5 and 12 min/km. -/
lemma speedToPace_envelope (v : ℚ) (h1 : minSpeed ≤ v) (h2 : v ≤ maxSpeed) :
    5/2 ≤ speedToPace v ∧ speedToPace v ≤ 12 := by
  rw [minSpeed_eq] at h1
  rw [maxSpeed_eq] at h2
  have hv : 0 < v := by linarith
  unfold speedToPace
  constructor
  · rw [le_div_iff (by positivity)]
    linarith
  · rw [div_le_iff (by positivity)]
    linarith

/-- The clamped pace update always lands inside the envelope. -/
lemma solverAdjust_mem (g e v : ℚ) :
    minSpeed ≤ solverAdjust g e v ∧ solverAdjust g e v ≤ maxSpeed := by
  unfold solverAdjust
  refine ⟨le_max_left _ _, max_le ?_ (min_le_left _ _)⟩
  rw [minSpeed_eq, maxSpeed_eq]
  norm_num

/-- Loop invariant: every history entry recorded at iteration index ≥ 1
carries a pace inside the 2.5–12 min/km envelope (the working speed is
clamped before every re-entry of the loop). -/
lemma solverLoop_envelope (tbl : EconTable) (be : ℚ) (R : Route)
    (g L tol : ℚ) :
    ∀ (fuel : ℕ) (s : SolverState),
      (1 ≤ s.iteration → minSpeed ≤ s.basePaceMs ∧ s.basePaceMs ≤ maxSpeed) →
      (∀ st ∈ s.history, 1 ≤ st.iteration → 5/2 ≤ st.basePace ∧ st.basePace ≤ 12) →
      ∀ st ∈ (solverLoop tbl be R g L tol fuel s).history,
        1 ≤ st.iteration → 5/2 ≤ st.basePace ∧ st.basePace ≤ 12 := by
  intro fuel
  induction fuel with
  | zero => intro s _ hh; exact hh
  | succ n ih =>
    intro s hv hh st hst hit
    have hstep : ∀ st' ∈ (solverStep tbl be R g L s).1.history,
        1 ≤ st'.iteration → 5/2 ≤ st'.basePace ∧ st'.basePace ≤ 12 := by
      intro st' hst' hit'
      rw [solverStep_fst_history, List.mem_append, List.mem_singleton] at hst'
      rcases hst' with h | rfl
      · exact hh st' h hit'
      · exact speedToPace_envelope s.basePaceMs (hv hit').1 (hv hit').2
    rw [solverLoop_succ] at hst
    by_cases hc : |(solverStep tbl be R g L s).2| ≤ tol
    · rw [if_pos hc] at hst
      exact hstep st hst hit
    · rw [if_neg hc] at hst
      exact ih
        { (solverStep tbl be R g L s).1 with
          basePaceMs :=
            solverAdjust g (solverStep tbl be R g L s).2
              (solverStep tbl be R g L s).1.basePaceMs
          iteration := s.iteration + 1 }
        (fun _ => solverAdjust_mem _ _ _)
        (fun st' hst' hit' => hstep st' hst' hit') st hst hit

set_option maxRecDepth 2000 in
/-- Claim C3, counterexample: on a flat 1000 m route with goal time 1 s,
the first evaluated trial pace is the unclamped naive average
1000 m/s — recorded in the history as 1/60 min/km, far outside the
2.5–12 min/km envelope — and since the solver converges on that first
iterate, the returned base pace 1000 m/s also lies outside the envelope
(`maxSpeed = 20/3` m/s). -/
theorem C3_counterexample :
    ((findBasePaceForGoalTime (mkSolver 0) modelTable (flatRoute 1000) 1 50).1.convergenceHistory.map
      ConvergenceStep.basePace = [1/60])
    ∧ ¬((5/2 : ℚ) ≤ 1/60)
    ∧ (findBasePaceForGoalTime (mkSolver 0) modelTable (flatRoute 1000) 1 50).1.basePaceMs = 1000
    ∧ maxSpeed < 1000 := by
  refine ⟨?_, by norm_num, ?_, by rw [maxSpeed_eq]; norm_num⟩ <;> with_unfolding_all rfl

/-- Claim C3, amended: every iterate of the convergence loop other than
the first lies within the 2.5–12 min/km envelope: each history entry
with iteration index ≥ 1 was evaluated at a pace clamped into the
envelope. The first evaluated trial pace (iteration 0) is the unclamped
naive average pace and can lie outside, and if the solver stops there the
returned pace can too. -/
theorem C3_envelope_after_first_iterate (solver : GoalPaceSolver)
    (tbl : EconTable) (R : Route) (T L : ℚ) (st : ConvergenceStep)
    (hst : st ∈ (findBasePaceForGoalTime solver tbl R T L).1.convergenceHistory)
    (hit : 1 ≤ st.iteration) :
    5/2 ≤ st.basePace ∧ st.basePace ≤ 12 := by
  rw [findBasePace_result] at hst
  exact solverLoop_envelope tbl solver.baselineElevation R T L solver.tolerance
    solver.maxIterations (solverInit R T) (by intro h; cases h)
    (by intro st' hst'; cases hst') st hst hit

set_option maxRecDepth 2000 in
/-- Witness for C3 at the second iterate of a downhill-route run
(base pace ≈ 6.82 min/km, inside the envelope). -/
theorem C3_witness :
    (5/2 : ℚ) ≤ 49784000000/7297370583 ∧ (49784000000/7297370583 : ℚ) ≤ 12 :=
  C3_envelope_after_first_iterate (mkSolver 0) modelTable
    (mkLinearRoute 100 20 (-20)) 40 50
    ⟨1, 49784000000/7297370583, 95028548880/2432456861,
      -2269725560/2432456861, -5674313900/2432456861⟩
    (by
      have hlist : (findBasePaceForGoalTime (mkSolver 0) modelTable
            (mkLinearRoute 100 20 (-20)) 40 50).1.convergenceHistory
          = [⟨0, 20/3, 1187856861/31115000, -56743139/31115000,
              -56743139/12446000⟩,
             ⟨1, 49784000000/7297370583, 95028548880/2432456861,
              -2269725560/2432456861, -5674313900/2432456861⟩] := by
        with_unfolding_all rfl
      rw [hlist]
      simp)
    (by norm_num)

/-! ## Claim C1 -/

lemma solverStep_best_none {tbl : EconTable} {be : ℚ} {R : Route} {g L : ℚ}
    {s : SolverState} (h : s.bestError = none) :
    (solverStep tbl be R g L s).1.bestError
        = some ((calculateTotalTime tbl be R s.basePaceMs L).1 - g)
      ∧ (solverStep tbl be R g L s).1.bestPace = s.basePaceMs := by
  simp [solverStep, h]

lemma solverStep_best_some_lt {tbl : EconTable} {be : ℚ} {R : Route} {g L : ℚ}
    {s : SolverState} {b : ℚ} (h : s.bestError = some b)
    (hlt : |(calculateTotalTime tbl be R s.basePaceMs L).1 - g| < |b|) :
    (solverStep tbl be R g L s).1.bestError
        = some ((calculateTotalTime tbl be R s.basePaceMs L).1 - g)
      ∧ (solverStep tbl be R g L s).1.bestPace = s.basePaceMs := by
  simp [solverStep, h, hlt]

lemma solverStep_best_some_ge {tbl : EconTable} {be : ℚ} {R : Route} {g L : ℚ}
    {s : SolverState} {b : ℚ} (h : s.bestError = some b)
    (hge : ¬ |(calculateTotalTime tbl be R s.basePaceMs L).1 - g| < |b|) :
    (solverStep tbl be R g L s).1.bestError = some b
      ∧ (solverStep tbl be R g L s).1.bestPace = s.bestPace := by
  simp [solverStep, h, hge]

/-- One pass of the loop preserves the best-iterate invariant: the best
error/pace pair is attained at some history entry whose absolute error is
minimal over the whole history. -/
lemma solverStep_best_invariant (tbl : EconTable) (be : ℚ) (R : Route)
    (g L : ℚ) (s : SolverState)
    (h1 : s.bestError = none → s.history = [])
    (h2 : ∀ b, s.bestError = some b →
      ((∃ st ∈ s.history, st.error = b ∧ st.basePace = speedToPace s.bestPace)
       ∧ ∀ st ∈ s.history, |b| ≤ |st.error|)) :
    ((solverStep tbl be R g L s).1.bestError = none →
        (solverStep tbl be R g L s).1.history = [])
    ∧ ∀ b, (solverStep tbl be R g L s).1.bestError = some b →
      ((∃ st ∈ (solverStep tbl be R g L s).1.history,
          st.error = b ∧ st.basePace = speedToPace (solverStep tbl be R g L s).1.bestPace)
       ∧ ∀ st ∈ (solverStep tbl be R g L s).1.history, |b| ≤ |st.error|) := by
  set e := (calculateTotalTime tbl be R s.basePaceMs L).1 - g with he
  rcases hbe : s.bestError with _ | b0
  · obtain ⟨hbe', hbp'⟩ := @solverStep_best_none tbl be R g L s hbe
    rw [← he] at hbe'
    constructor
    · intro hcon; rw [hbe'] at hcon; cases hcon
    · intro b hb
      rw [hbe'] at hb
      injection hb with hb
      subst hb
      rw [solverStep_fst_history, h1 hbe, List.nil_append, hbp']
      refine ⟨⟨_, List.mem_singleton.mpr rfl, rfl, rfl⟩, ?_⟩
      intro st hst
      rw [List.mem_singleton] at hst
      subst hst
      exact le_refl _
  · by_cases hlt : |e| < |b0|
    · obtain ⟨hbe', hbp'⟩ := @solverStep_best_some_lt tbl be R g L s b0 hbe
        (he ▸ hlt)
      rw [← he] at hbe'
      constructor
      · intro hcon; rw [hbe'] at hcon; cases hcon
      · intro b hb
        rw [hbe'] at hb
        injection hb with hb
        subst hb
        rw [solverStep_fst_history, hbp']
        constructor
        · exact ⟨_, List.mem_append_right _ (List.mem_singleton.mpr rfl), rfl, rfl⟩
        · intro st hst
          rw [List.mem_append, List.mem_singleton] at hst
          rcases hst with h | rfl
          · exact le_trans (le_of_lt hlt) ((h2 b0 hbe).2 st h)
          · exact le_refl _
    · obtain ⟨hbe', hbp'⟩ := @solverStep_best_some_ge tbl be R g L s b0 hbe
        (he ▸ hlt)
      constructor
      · intro hcon; rw [hbe'] at hcon; cases hcon
      · intro b hb
        rw [hbe'] at hb
        injection hb with hb
        subst hb
        obtain ⟨⟨st0, hm0, he0, hp0⟩, hmin⟩ := h2 b0 hbe
        rw [solverStep_fst_history, hbp']
        constructor
        · exact ⟨st0, List.mem_append_left _ hm0, he0, hp0⟩
        · intro st hst
          rw [List.mem_append, List.mem_singleton] at hst
          rcases hst with h | rfl
          · exact hmin st h
          · exact le_of_not_lt hlt

/-- The best-iterate invariant holds at the end of the loop. -/
lemma solverLoop_best_invariant (tbl : EconTable) (be : ℚ) (R : Route)
    (g L tol : ℚ) :
    ∀ (fuel : ℕ) (s : SolverState),
      (s.bestError = none → s.history = []) →
      (∀ b, s.bestError = some b →
        ((∃ st ∈ s.history, st.error = b ∧ st.basePace = speedToPace s.bestPace)
         ∧ ∀ st ∈ s.history, |b| ≤ |st.error|)) →
      ((solverLoop tbl be R g L tol fuel s).bestError = none →
          (solverLoop tbl be R g L tol fuel s).history = [])
      ∧ ∀ b, (solverLoop tbl be R g L tol fuel s).bestError = some b →
        ((∃ st ∈ (solverLoop tbl be R g L tol fuel s).history,
            st.error = b
            ∧ st.basePace = speedToPace (solverLoop tbl be R g L tol fuel s).bestPace)
         ∧ ∀ st ∈ (solverLoop tbl be R g L tol fuel s).history, |b| ≤ |st.error|) := by
  intro fuel
  induction fuel with
  | zero => intro s hs1 hs2; exact ⟨hs1, hs2⟩
  | succ n ih =>
    intro s hs1 hs2
    obtain ⟨hi1, hi2⟩ := solverStep_best_invariant tbl be R g L s hs1 hs2
    rw [solverLoop_succ]
    by_cases hc : |(solverStep tbl be R g L s).2| ≤ tol
    · rw [if_pos hc]
      exact ⟨hi1, hi2⟩
    · rw [if_neg hc]
      exact ih
        { (solverStep tbl be R g L s).1 with
          basePaceMs :=
            solverAdjust g (solverStep tbl be R g L s).2
              (solverStep tbl be R g L s).1.basePaceMs
          iteration := s.iteration + 1 }
        hi1 hi2

lemma solverLoop_history_length (tbl : EconTable) (be : ℚ) (R : Route)
    (g L tol : ℚ) :
    ∀ (fuel : ℕ) (s : SolverState),
      s.history.length ≤ (solverLoop tbl be R g L tol fuel s).history.length := by
  intro fuel
  induction fuel with
  | zero => intro s; exact le_refl _
  | succ n ih =>
    intro s
    rw [solverLoop_succ]
    by_cases hc : |(solverStep tbl be R g L s).2| ≤ tol
    · rw [if_pos hc, solverStep_fst_history, List.length_append]
      exact Nat.le_add_right _ _
    · rw [if_neg hc]
      refine le_trans ?_ (ih _)
      show s.history.length ≤ ((solverStep tbl be R g L s).1.history).length
      rw [solverStep_fst_history, List.length_append]
      exact Nat.le_add_right _ _

lemma solverLoop_history_ne_nil (tbl : EconTable) (be : ℚ) (R : Route)
    (g L tol : ℚ) (fuel : ℕ) (s : SolverState) (hf : 0 < fuel) :
    (solverLoop tbl be R g L tol fuel s).history ≠ [] := by
  rcases fuel with _ | n
  · exact absurd hf (lt_irrefl 0)
  rw [solverLoop_succ]
  by_cases hc : |(solverStep tbl be R g L s).2| ≤ tol
  · rw [if_pos hc, solverStep_fst_history]
    exact List.append_ne_nil_of_right_ne_nil _ (by simp)
  · rw [if_neg hc]
    have hlen := solverLoop_history_length tbl be R g L tol n
      { (solverStep tbl be R g L s).1 with
        basePaceMs :=
          solverAdjust g (solverStep tbl be R g L s).2
            (solverStep tbl be R g L s).1.basePaceMs
        iteration := s.iteration + 1 }
    rw [← List.length_pos]
    refine lt_of_lt_of_le ?_ hlen
    show 0 < ((solverStep tbl be R g L s).1.history).length
    rw [solverStep_fst_history, List.length_append]
    simp

/-- Claim C1, amended: for every route, goal time and sub-segment length,
(1) when `maxIterations ≥ 1` the returned convergence history is
non-empty (so the last-entry read after the loop is safe and the call
returns without throwing); (2) the converged flag is true if and only if
the absolute error of the final returned pace's recomputed predicted time
against the goal is within tolerance; and (3) whenever some recorded
iterate's absolute error strictly beats the last recorded one — in
particular when the loop exits at `maxIterations` with a strictly better
earlier iterate — the returned base pace equals a recorded iterate of
minimal absolute error. (When the last iterate ties the minimum, e.g.
with monotonically improving errors, the code instead returns the working
pace left by the final adjustment, which is generally no recorded
iterate — see the counterexample.) -/
theorem C1_solver_result_rules :
    (∀ (solver : GoalPaceSolver) (tbl : EconTable) (R : Route) (T L : ℚ),
      0 < solver.maxIterations →
      (findBasePaceForGoalTime solver tbl R T L).1.convergenceHistory ≠ [])
    ∧ (∀ (solver : GoalPaceSolver) (tbl : EconTable) (R : Route) (T L : ℚ),
      ((findBasePaceForGoalTime solver tbl R T L).1.converged = true
        ↔ |(findBasePaceForGoalTime solver tbl R T L).1.finalError| ≤ solver.tolerance))
    ∧ (∀ (solver : GoalPaceSolver) (tbl : EconTable) (R : Route) (T L : ℚ)
        (last st1 : ConvergenceStep),
      (findBasePaceForGoalTime solver tbl R T L).1.convergenceHistory.getLast? = some last →
      st1 ∈ (findBasePaceForGoalTime solver tbl R T L).1.convergenceHistory →
      |st1.error| < |last.error| →
      ∃ st ∈ (findBasePaceForGoalTime solver tbl R T L).1.convergenceHistory,
        (findBasePaceForGoalTime solver tbl R T L).1.basePaceMinPerKm = st.basePace
        ∧ ∀ st2 ∈ (findBasePaceForGoalTime solver tbl R T L).1.convergenceHistory,
            |st.error| ≤ |st2.error|) := by
  refine ⟨?_, ?_, ?_⟩
  · intro solver tbl R T L hm
    rw [findBasePace_result]
    exact solverLoop_history_ne_nil tbl solver.baselineElevation R T L
      solver.tolerance solver.maxIterations (solverInit R T) hm
  · intro solver tbl R T L
    rw [findBasePace_result]
    exact decide_eq_true_iff
  · intro solver tbl R T L last st1 hlast hmem hlt
    set s := solverLoop tbl solver.baselineElevation R T L solver.tolerance
      solver.maxIterations (solverInit R T) with hs
    have hlast2 : s.history.getLast? = some last := hlast
    have hmem2 : st1 ∈ s.history := hmem
    obtain ⟨hinv1, hinv2⟩ := solverLoop_best_invariant tbl
      solver.baselineElevation R T L solver.tolerance solver.maxIterations
      (solverInit R T) (fun _ => rfl) (by intro b hb; cases hb)
    rw [← hs] at hinv1 hinv2
    rcases hbe : s.bestError with _ | b
    · rw [hinv1 hbe] at hmem2
      cases hmem2
    · obtain ⟨⟨st0, hm0, he0, hp0⟩, hmin⟩ := hinv2 b hbe
      have hbstrict : |b| < |last.error| :=
        lt_of_le_of_lt (hmin st1 hmem2) hlt
      have hsel : selectBasePace s = s.bestPace := by
        unfold selectBasePace
        rw [hbe, hlast2]
        exact if_pos hbstrict
      have hm0' : st0 ∈
          (findBasePaceForGoalTime solver tbl R T L).1.convergenceHistory := hm0
      refine ⟨st0, hm0', ?_, ?_⟩
      · show speedToPace (selectBasePace s) = st0.basePace
        rw [hsel, hp0]
      · intro st2 hst2
        have hst2' : st2 ∈ s.history := hst2
        rw [he0]
        exact hmin st2 hst2'

set_option maxRecDepth 8000 in
/-- Claim C1, counterexample: on `routeSteep` with goal time 1 000 000 s
the loop exits at the full `maxIterations = 20` without meeting the 1 s
tolerance (every recorded |error| exceeds 1), yet the returned base pace
equals none of the recorded iterates — the errors improve monotonically,
so the best iterate ties the last one and the code returns the working
pace left by the final proportional adjustment instead of the
lowest-|error| iterate the claim promises. -/
theorem C1_counterexample :
    (findBasePaceForGoalTime (mkSolver 0) modelTable routeSteep 1000000 50).1.iterations = 20
    ∧ (mkSolver 0).maxIterations = 20
    ∧ ((findBasePaceForGoalTime (mkSolver 0) modelTable routeSteep 1000000 50).1.convergenceHistory.all
        fun st => decide (1 < |st.error|)) = true
    ∧ ((findBasePaceForGoalTime (mkSolver 0) modelTable routeSteep 1000000 50).1.convergenceHistory.all
        fun st => decide
          ((findBasePaceForGoalTime (mkSolver 0) modelTable routeSteep 1000000 50).1.basePaceMinPerKm
            ≠ st.basePace)) = true := by
  refine ⟨?_, rfl, ?_, ?_⟩ <;> with_unfolding_all rfl

set_option maxRecDepth 8000 in
/-- Witness for C1 on a downhill route with goal time 200 s: the solver
gets stuck at the 12 min/km clamp, the first iterate (error ≈ −9.1 s)
strictly beats the last recorded error (≈ −131.3 s), and the returned
pace is that lowest-|error| iterate. -/
theorem C1_witness :
    ∃ st ∈ (findBasePaceForGoalTime (mkSolver 0) modelTable
        (mkLinearRoute 100 20 (-20)) 200 50).1.convergenceHistory,
      (findBasePaceForGoalTime (mkSolver 0) modelTable
        (mkLinearRoute 100 20 (-20)) 200 50).1.basePaceMinPerKm = st.basePace
      ∧ ∀ st2 ∈ (findBasePaceForGoalTime (mkSolver 0) modelTable
          (mkLinearRoute 100 20 (-20)) 200 50).1.convergenceHistory,
          |st.error| ≤ |st2.error| :=
  C1_solver_result_rules.2.2 (mkSolver 0) modelTable
    (mkLinearRoute 100 20 (-20)) 200 50
    ⟨19, 12, 10690711749/155575000, -20424288251/155575000,
      -20424288251/311150000⟩
    ⟨0, 100/3, 1187856861/6223000, -56743139/6223000, -56743139/12446000⟩
    (by with_unfolding_all rfl)
    (by
      have hhead : (findBasePaceForGoalTime (mkSolver 0) modelTable
            (mkLinearRoute 100 20 (-20)) 200 50).1.convergenceHistory.head?
          = some ⟨0, 100/3, 1187856861/6223000, -56743139/6223000,
              -56743139/12446000⟩ := by
        with_unfolding_all rfl
      exact List.mem_of_mem_head? hhead)
    (by
      show |(-56743139/6223000 : ℚ)| < |(-20424288251/155575000 : ℚ)|
      rw [abs_of_nonpos (by norm_num), abs_of_nonpos (by norm_num)]
      norm_num)

/-! ## Claim C10 -/

/-- Pace-to-speed conversion is a left inverse of speed-to-pace. -/
lemma paceToSpeed_speedToPace (v : ℚ) : paceToSpeed (speedToPace v) = v := by
  unfold paceToSpeed speedToPace
  rcases eq_or_ne v 0 with rfl | hv
  · norm_num
  · field_simp
    ring

/-- Loop invariant: the accumulated record list is exactly the
concatenation of the per-iterate integration records of the recorded
history paces. -/
lemma solverLoop_records_eq (tbl : EconTable) (be : ℚ) (R : Route)
    (g L tol : ℚ) :
    ∀ (fuel : ℕ) (s : SolverState),
      s.records = (s.history.map fun st =>
        integrateRecords tbl be R (paceToSpeed st.basePace) 0 R.totalDistance L).flatten →
      (solverLoop tbl be R g L tol fuel s).records
        = ((solverLoop tbl be R g L tol fuel s).history.map fun st =>
            integrateRecords tbl be R (paceToSpeed st.basePace) 0 R.totalDistance L).flatten := by
  intro fuel
  induction fuel with
  | zero => intro s hs; exact hs
  | succ n ih =>
    intro s hs
    have hstep : (solverStep tbl be R g L s).1.records
        = ((solverStep tbl be R g L s).1.history.map fun st =>
            integrateRecords tbl be R (paceToSpeed st.basePace) 0 R.totalDistance L).flatten := by
      rw [solverStep_fst_records, solverStep_fst_history, List.map_append,
        List.flatten_append, hs]
      simp [paceToSpeed_speedToPace, calculateTotalTime, integrateRecords]
    rw [solverLoop_succ]
    by_cases hc : |(solverStep tbl be R g L s).2| ≤ tol
    · rw [if_pos hc]
      exact hstep
    · rw [if_neg hc]
      exact ih _ hstep

set_option maxRecDepth 8000 in
/-- Claim C10: (1) the `downhillAdjustments` list is reset exactly once
per `findBasePaceForGoalTime` call — the result is independent of
whatever list the solver object carried before the call; (2) the returned
list is precisely the concatenation of the cap records of every
convergence-loop iterate (in history order) followed by the records of
the final recomputation at the returned pace; (3) concretely, on a steep
downhill route solved in two iterations, the returned list holds three
record pairs for the same two route spans — one per iteration and one
from the final recomputation — and the first iteration's records were
created at a trial pace different from the finally returned one
(different theoretical speeds for the same span). -/
theorem C10_adjustments_reset_and_accumulate :
    (∀ (m : ℕ) (tol be : ℚ)
        (ladj1 ladj2 : List DownhillAdjustment) (tbl : EconTable) (R : Route)
        (T L : ℚ),
      (findBasePaceForGoalTime ⟨m, tol, ladj1, be⟩ tbl R T L).1
        = (findBasePaceForGoalTime ⟨m, tol, ladj2, be⟩ tbl R T L).1)
    ∧ (∀ (solver : GoalPaceSolver) (tbl : EconTable) (R : Route) (T L : ℚ),
      (findBasePaceForGoalTime solver tbl R T L).1.downhillAdjustments
        = ((findBasePaceForGoalTime solver tbl R T L).1.convergenceHistory.map
            fun st => integrateRecords tbl solver.baselineElevation R
              (paceToSpeed st.basePace) 0 R.totalDistance L).flatten
          ++ integrateRecords tbl solver.baselineElevation R
              (findBasePaceForGoalTime solver tbl R T L).1.basePaceMs
              0 R.totalDistance L)
    ∧ ((findBasePaceForGoalTime (mkSolver 0) modelTable
          (mkLinearRoute 100 20 (-20)) 40 50).1.downhillAdjustments.map
            fun r => (r.startDistance, r.endDistance))
        = [(0, 50), (50, 100), (0, 50), (50, 100), (0, 50), (50, 100)]
    ∧ ((findBasePaceForGoalTime (mkSolver 0) modelTable
          (mkLinearRoute 100 20 (-20)) 40 50).1.downhillAdjustments.getD 0
            ⟨0,0,0,0,0,0⟩).theoreticalSpeed
        ≠ ((findBasePaceForGoalTime (mkSolver 0) modelTable
          (mkLinearRoute 100 20 (-20)) 40 50).1.downhillAdjustments.getD 4
            ⟨0,0,0,0,0,0⟩).theoreticalSpeed := by
  refine ⟨?_, ?_, ?_, ?_⟩
  · intro m tol be ladj1 ladj2 tbl R T L
    rfl
  · intro solver tbl R T L
    rw [findBasePace_result]
    have hloop := solverLoop_records_eq tbl solver.baselineElevation R T L
      solver.tolerance solver.maxIterations (solverInit R T) rfl
    show (solverLoop tbl solver.baselineElevation R T L solver.tolerance
        solver.maxIterations (solverInit R T)).records ++ _ = _
    rw [hloop]
    rfl
  · with_unfolding_all rfl
  · with_unfolding_all decide

/-! ## Claim C9 -/

/-- The solver state returned by `findBasePaceForGoalTime` carries exactly
the record list of the returned result (the source's array aliasing). -/
lemma findBasePace_state_records (solver : GoalPaceSolver) (tbl : EconTable)
    (R : Route) (T L : ℚ) :
    (findBasePaceForGoalTime solver tbl R T L).2.downhillAdjustments
      = (findBasePaceForGoalTime solver tbl R T L).1.downhillAdjustments := rfl

/-- The lap-split loop only appends to the solver's live record list. -/
lemma detailedSplitsAux_records_prefix (tbl : EconTable) (be : ℚ) (R : Route)
    (b L : ℚ) :
    ∀ (pairs : List (LapBoundary × LapBoundary)) (i : ℕ) (cum : ℚ)
      (recs : List DownhillAdjustment),
      recs <+: (detailedSplitsAux tbl be R b L pairs i cum recs).2 := by
  intro pairs
  induction pairs with
  | nil => intro i cum recs; exact List.prefix_rfl
  | cons pr rest ih =>
    intro i cum recs
    rcases pr with ⟨lapStart, lapEnd⟩
    exact List.IsPrefix.trans (List.prefix_append recs _) (ih _ _ _)

/-- Claim C9, amended: the `SolverResult` record inside a
`calculateLapSplits` result is exactly the record `findBasePaceForGoalTime`
returned — no field of the record itself is overwritten — but the
`downhillAdjustments` array that record aliases is extended in place by
the lap re-integration: after lap-split computation the solver's live list
has the result's list as a (in general strict) prefix. Only when no lap
sub-segment engages the downhill cap does the list stay unchanged. -/
theorem C9_lap_splits_append_records (solver : GoalPaceSolver)
    (tbl : EconTable) (R : Route) (T : ℚ) (key : String) (L : ℚ)
    (res : SolverResult) (splits : List LapSplit) (fin : GoalPaceSolver)
    (h : calculateLapSplits solver tbl R T key L = some (res, splits, fin)) :
    res = (findBasePaceForGoalTime solver tbl R T L).1
    ∧ res.downhillAdjustments <+: fin.downhillAdjustments := by
  unfold calculateLapSplits at h
  rcases hk : LAP_DISTANCES key with _ | lapDist
  · rw [hk] at h
    cases h
  · simp only [hk] at h
    injection h with h
    rw [Prod.mk.injEq, Prod.mk.injEq] at h
    obtain ⟨h1, h2, h3⟩ := h
    refine ⟨h1.symm, ?_⟩
    rw [← h1, ← h3]
    exact detailedSplitsAux_records_prefix _ _ _ _ _ _ _ _ _

set_option maxRecDepth 2000 in
/-- Claim C9, counterexample: on a steep 100 m downhill route with goal
time 20 s and 400 m laps, the solver returns a result whose adjustment
list has 4 records, but after computing lap splits the list the result
aliases has 6 — computing lap splits from the returned `SolverResult`
mutates its `downhillAdjustments` list, contrary to the claim. -/
theorem C9_counterexample :
    (calculateLapSplits (mkSolver 0) modelTable (mkLinearRoute 100 20 (-20))
        20 "400m" 50).isSome = true
    ∧ ((calculateLapSplits (mkSolver 0) modelTable (mkLinearRoute 100 20 (-20))
        20 "400m" 50).getD (⟨0, 0, 0, false, 0, [], 0, []⟩, [],
          mkSolver 0)).1.downhillAdjustments.length = 4
    ∧ ((calculateLapSplits (mkSolver 0) modelTable (mkLinearRoute 100 20 (-20))
        20 "400m" 50).getD (⟨0, 0, 0, false, 0, [], 0, []⟩, [],
          mkSolver 0)).2.2.downhillAdjustments.length = 6
    ∧ ¬(((calculateLapSplits (mkSolver 0) modelTable (mkLinearRoute 100 20 (-20))
        20 "400m" 50).getD (⟨0, 0, 0, false, 0, [], 0, []⟩, [],
          mkSolver 0)).1.downhillAdjustments
      = ((calculateLapSplits (mkSolver 0) modelTable (mkLinearRoute 100 20 (-20))
        20 "400m" 50).getD (⟨0, 0, 0, false, 0, [], 0, []⟩, [],
          mkSolver 0)).2.2.downhillAdjustments) := by
  have hl1 : ((calculateLapSplits (mkSolver 0) modelTable
      (mkLinearRoute 100 20 (-20)) 20 "400m" 50).getD
        (⟨0, 0, 0, false, 0, [], 0, []⟩, [],
          mkSolver 0)).1.downhillAdjustments.length = 4 := by
    with_unfolding_all rfl
  have hl2 : ((calculateLapSplits (mkSolver 0) modelTable
      (mkLinearRoute 100 20 (-20)) 20 "400m" 50).getD
        (⟨0, 0, 0, false, 0, [], 0, []⟩, [],
          mkSolver 0)).2.2.downhillAdjustments.length = 6 := by
    with_unfolding_all rfl
  refine ⟨by with_unfolding_all rfl, hl1, hl2, fun heq => ?_⟩
  have hlen := congrArg List.length heq
  rw [hl1, hl2] at hlen
  exact absurd hlen (by norm_num)

set_option maxRecDepth 2000 in
/-- Witness for the amended C9 at the same concrete run. -/
theorem C9_witness :
    ((calculateLapSplits (mkSolver 0) modelTable (mkLinearRoute 100 20 (-20))
        20 "400m" 50).getD (⟨0, 0, 0, false, 0, [], 0, []⟩, [],
          mkSolver 0)).1
      = (findBasePaceForGoalTime (mkSolver 0) modelTable
          (mkLinearRoute 100 20 (-20)) 20 50).1
    ∧ ((calculateLapSplits (mkSolver 0) modelTable (mkLinearRoute 100 20 (-20))
        20 "400m" 50).getD (⟨0, 0, 0, false, 0, [], 0, []⟩, [],
          mkSolver 0)).1.downhillAdjustments
      <+: ((calculateLapSplits (mkSolver 0) modelTable (mkLinearRoute 100 20 (-20))
        20 "400m" 50).getD (⟨0, 0, 0, false, 0, [], 0, []⟩, [],
          mkSolver 0)).2.2.downhillAdjustments :=
  C9_lap_splits_append_records (mkSolver 0) modelTable
    (mkLinearRoute 100 20 (-20)) 20 "400m" 50
    ((calculateLapSplits (mkSolver 0) modelTable (mkLinearRoute 100 20 (-20))
        20 "400m" 50).getD (⟨0, 0, 0, false, 0, [], 0, []⟩, [],
          mkSolver 0)).1
    ((calculateLapSplits (mkSolver 0) modelTable (mkLinearRoute 100 20 (-20))
        20 "400m" 50).getD (⟨0, 0, 0, false, 0, [], 0, []⟩, [],
          mkSolver 0)).2.1
    ((calculateLapSplits (mkSolver 0) modelTable (mkLinearRoute 100 20 (-20))
        20 "400m" 50).getD (⟨0, 0, 0, false, 0, [], 0, []⟩, [],
          mkSolver 0)).2.2
    (by
      have hne : (calculateLapSplits (mkSolver 0) modelTable
          (mkLinearRoute 100 20 (-20)) 20 "400m" 50).isSome = true := by
        with_unfolding_all rfl
      rcases ho : calculateLapSplits (mkSolver 0) modelTable
          (mkLinearRoute 100 20 (-20)) 20 "400m" 50 with _ | trip
      · rw [ho] at hne
        cases hne
      · rfl)

/-! ## Sub-segment decomposition lemmas (for C7 and C8) -/

/-- Inside the sub-segment walk, every visited start point lies strictly
before the end distance. -/
lemma lt_of_lt_numSegs {s e L : ℚ} (hL : 0 < L) {i : ℕ}
    (hi : i < numSegs s e L) : s + (i : ℚ) * L < e := by
  unfold numSegs at hi
  rw [Int.lt_toNat, Int.lt_ceil] at hi
  have h2 : (i : ℚ) * L < e - s := (lt_div_iff hL).mp hi
  linarith

/-- The walk's final step reaches (at least) the end distance. -/
lemma le_numSegs_mul {s e L : ℚ} (hL : 0 < L) (hse : s ≤ e) :
    e ≤ s + (numSegs s e L : ℚ) * L := by
  unfold numSegs
  have h0 : (0:ℤ) ≤ ⌈(e - s) / L⌉ :=
    Int.ceil_nonneg (div_nonneg (by linarith) hL.le)
  have hcast : ((⌈(e - s) / L⌉.toNat : ℚ)) = ((⌈(e - s) / L⌉ : ℤ) : ℚ) := by
    exact_mod_cast Int.toNat_of_nonneg h0
  have hceil : (e - s) / L ≤ (⌈(e - s) / L⌉ : ℚ) := Int.le_ceil _
  have h2 : e - s ≤ (⌈(e - s) / L⌉ : ℚ) * L := (div_le_iff hL).mp hceil
  rw [hcast]
  linarith

/-- Telescoping sum over `List.range`. -/
lemma list_sum_range_sub (f : ℕ → ℚ) :
    ∀ n, ((List.range n).map fun i => f (i + 1) - f i).sum = f n - f 0 := by
  intro n
  induction n with
  | zero => simp
  | succ m ih =>
    rw [List.range_succ, List.map_append, List.sum_append, ih]
    simp

/-- The sub-segment lengths sum to the walked span. -/
lemma segmentBounds_sum_lengths {s e L : ℚ} (hL : 0 < L) (hse : s ≤ e) :
    ((segmentBounds s e L).map fun p => p.2 - p.1).sum = e - s := by
  unfold segmentBounds
  rw [List.map_map]
  have hcong : ∀ i ∈ List.range (numSegs s e L),
      ((fun p : ℚ × ℚ => p.2 - p.1) ∘ fun i : ℕ =>
        (s + (i : ℚ) * L, min (s + ((i : ℚ) + 1) * L) e)) i
        = (fun i : ℕ => min (s + ((i + 1 : ℕ) : ℚ) * L) e
            - min (s + (i : ℚ) * L) e) i := by
    intro i hi
    rw [List.mem_range] at hi
    have h1 : s + (i : ℚ) * L < e := lt_of_lt_numSegs hL hi
    show min (s + ((i : ℚ) + 1) * L) e - (s + (i : ℚ) * L)
        = min (s + ((i + 1 : ℕ) : ℚ) * L) e - min (s + (i : ℚ) * L) e
    rw [min_eq_left (le_of_lt h1)]
    push_cast
    ring_nf
  rw [List.map_congr_left hcong,
    list_sum_range_sub (fun i => min (s + (i : ℚ) * L) e) (numSegs s e L)]
  rw [min_eq_right (le_numSegs_mul hL hse)]
  have h0 : min (s + ((0 : ℕ) : ℚ) * L) e = s := by
    rw [show s + ((0 : ℕ) : ℚ) * L = s by push_cast; ring]
    exact min_eq_left hse
  rw [h0]

/-- Splitting the walk at an aligned intermediate point (a whole number of
steps from the start) splits the sub-segment list. -/
lemma segmentBounds_append {s m e L : ℚ} (hL : 0 < L) (k : ℕ)
    (hm : m = s + (k : ℚ) * L) (hme : m ≤ e) :
    segmentBounds s e L = segmentBounds s m L ++ segmentBounds m e L := by
  have hkm : numSegs s m L = k := by
    unfold numSegs
    have h1 : (m - s) / L = (k : ℚ) := by
      rw [hm]
      field_simp
    rw [h1, Int.ceil_natCast, Int.toNat_natCast]
  have hsum : numSegs s e L = k + numSegs m e L := by
    unfold numSegs
    have h1 : (e - s) / L = (e - m) / L + (k : ℚ) := by
      rw [hm]
      field_simp
      ring
    have h2 : (0:ℤ) ≤ ⌈(e - m) / L⌉ :=
      Int.ceil_nonneg (div_nonneg (by linarith) hL.le)
    rw [h1, Int.ceil_add_nat, Int.toNat_add_nat h2]
    exact Nat.add_comm _ _
  unfold segmentBounds
  rw [hkm, hsum, List.range_add, List.map_append, List.map_map]
  congr 1
  · apply List.map_congr_left
    intro i hi
    rw [List.mem_range] at hi
    have hi1 : s + ((i : ℚ) + 1) * L ≤ m := by
      rw [hm]
      have : ((i : ℚ) + 1) ≤ (k : ℚ) := by exact_mod_cast hi
      nlinarith
    rw [min_eq_left hi1, min_eq_left (le_trans hi1 hme)]
  · apply List.map_congr_left
    intro j hj
    show (s + ((k + j : ℕ) : ℚ) * L,
        min (s + (((k + j : ℕ) : ℚ) + 1) * L) e)
      = (m + (j : ℚ) * L, min (m + ((j : ℚ) + 1) * L) e)
    have ha : s + ((k + j : ℕ) : ℚ) * L = m + (j : ℚ) * L := by
      rw [hm]
      push_cast
      ring
    have hb : s + (((k + j : ℕ) : ℚ) + 1) * L = m + ((j : ℚ) + 1) * L := by
      rw [hm]
      push_cast
      ring
    rw [ha, hb]

/-- Time additivity of the integration walk across an aligned cut. -/
lemma integrateTime_append (tbl : EconTable) (be : ℚ) (R : Route)
    {b s m e L : ℚ} (hL : 0 < L) (k : ℕ) (hm : m = s + (k : ℚ) * L)
    (hme : m ≤ e) :
    integrateTime tbl be R b s e L
      = integrateTime tbl be R b s m L + integrateTime tbl be R b m e L := by
  unfold integrateTime
  rw [segmentBounds_append hL k hm hme, List.map_append, List.sum_append]

/-- An empty walk takes no time. -/
lemma integrateTime_self (tbl : EconTable) (be : ℚ) (R : Route) (b x L : ℚ) :
    integrateTime tbl be R b x x L = 0 := by
  unfold integrateTime segmentBounds numSegs
  norm_num

/-! ## Claim C7 -/

/-- Pairing a range-indexed list with its own tail gives consecutive
index pairs. -/
lemma zip_tail_map_range {α : Type} (G : ℕ → α) (n : ℕ) :
    (((List.range (n + 1)).map G).zip (((List.range (n + 1)).map G).tail))
      = (List.range n).map fun i => (G i, G (i + 1)) := by
  apply List.ext_getElem
  · simp [List.length_zip]
  · intro i h1 h2
    rw [List.getElem_zip, List.getElem_tail]
    simp

/-- The lap times of the computed splits are the per-boundary-pair
integration times. -/
lemma detailedSplitsAux_map_lapTime (tbl : EconTable) (be : ℚ) (R : Route)
    (b L : ℚ) :
    ∀ (pairs : List (LapBoundary × LapBoundary)) (i : ℕ) (cum : ℚ)
      (recs : List DownhillAdjustment),
      (detailedSplitsAux tbl be R b L pairs i cum recs).1.map LapSplit.lapTime
        = pairs.map fun pr =>
            integrateTime tbl be R b pr.1.distance pr.2.distance L := by
  intro pairs
  induction pairs with
  | nil => intro i cum recs; rfl
  | cons pr rest ih =>
    intro i cum recs
    rcases pr with ⟨a, c⟩
    simp only [detailedSplitsAux, List.map_cons]
    rw [ih]
    rfl

/-- The lap distances of the computed splits are the boundary-pair
distance differences. -/
lemma detailedSplitsAux_map_lapDistance (tbl : EconTable) (be : ℚ) (R : Route)
    (b L : ℚ) :
    ∀ (pairs : List (LapBoundary × LapBoundary)) (i : ℕ) (cum : ℚ)
      (recs : List DownhillAdjustment),
      (detailedSplitsAux tbl be R b L pairs i cum recs).1.map LapSplit.lapDistance
        = pairs.map fun pr => pr.2.distance - pr.1.distance := by
  intro pairs
  induction pairs with
  | nil => intro i cum recs; rfl
  | cons pr rest ih =>
    intro i cum recs
    rcases pr with ⟨a, c⟩
    simp only [detailedSplitsAux, List.map_cons]
    rw [ih]

/-- Summing the integration over consecutive aligned cut points telescopes
to the whole-span integration. -/
lemma sum_integrate_cuts (tbl : EconTable) (be : ℚ) (R : Route) (b L : ℚ)
    (F : ℕ → ℚ) (hL : 0 < L) (hF0 : F 0 = 0) :
    ∀ n : ℕ, (∀ i, i ≤ n → ∃ k : ℕ, F i = (k : ℚ) * L) →
      (∀ i, i < n → F i ≤ F (i + 1)) →
      ((List.range n).map fun i =>
        integrateTime tbl be R b (F i) (F (i + 1)) L).sum
        = integrateTime tbl be R b 0 (F n) L := by
  intro n
  induction n with
  | zero =>
    intro _ _
    simp [hF0, integrateTime_self]
  | succ m ih =>
    intro hmul hmono
    rw [List.range_succ, List.map_append, List.sum_append,
      ih (fun i hi => hmul i (le_trans hi (Nat.le_succ m)))
        (fun i hi => hmono i (lt_trans hi (Nat.lt_succ_self m)))]
    obtain ⟨k, hk⟩ := hmul m (Nat.le_succ m)
    have happ : integrateTime tbl be R b 0 (F (m + 1)) L
        = integrateTime tbl be R b 0 (F m) L
          + integrateTime tbl be R b (F m) (F (m + 1)) L :=
      integrateTime_append tbl be R hL k
        (show F m = 0 + (k : ℚ) * L by rw [hk]; ring)
        (hmono m (Nat.lt_succ_self m))
    rw [happ]
    simp

/-- General partition identity for boundary families indexed by a range:
if the boundary distances start at 0, sit on the integration grid and are
monotone, then the lap distances sum to the last boundary's distance and
the lap times sum to the whole-span integration time. -/
lemma splits_partition_sums (tbl : EconTable) (be : ℚ) (R : Route)
    (b L : ℚ) (G : ℕ → LapBoundary) (n : ℕ)
    (recs0 : List DownhillAdjustment) (hL : 0 < L)
    (hG0 : (G 0).distance = 0)
    (hmul : ∀ i, i ≤ n → ∃ k : ℕ, (G i).distance = (k : ℚ) * L)
    (hmono : ∀ i, i < n → (G i).distance ≤ (G (i + 1)).distance) :
    ((detailedSplitsAux tbl be R b L
        (((List.range (n + 1)).map G).zip (((List.range (n + 1)).map G).tail))
        1 0 recs0).1.map LapSplit.lapDistance).sum = (G n).distance
    ∧ ((detailedSplitsAux tbl be R b L
        (((List.range (n + 1)).map G).zip (((List.range (n + 1)).map G).tail))
        1 0 recs0).1.map LapSplit.lapTime).sum
        = integrateTime tbl be R b 0 (G n).distance L := by
  rw [zip_tail_map_range G n]
  constructor
  · rw [detailedSplitsAux_map_lapDistance, List.map_map]
    have h := list_sum_range_sub (fun i => (G i).distance) n
    beta_reduce at h
    rw [hG0, sub_zero] at h
    exact h
  · rw [detailedSplitsAux_map_lapTime, List.map_map]
    exact sum_integrate_cuts tbl be R b L (fun i => (G i).distance) hL hG0
      n hmul hmono

/-- **C7** (aligned case): when the lap length is a positive multiple
`q·L` of the integration step and the route's total distance is a multiple
`p·L`, the lap splits partition the route exactly: lap distances sum to
the total distance and lap times sum to the whole-route predicted time. -/
theorem C7_lap_partition_aligned (tbl : EconTable) (be : ℚ) (R : Route)
    (b L lapLen : ℚ) (q p : ℕ) (recs0 : List DownhillAdjustment)
    (hL : 0 < L) (hq : 0 < q) (hlen : lapLen = (q : ℚ) * L)
    (hD : R.totalDistance = (p : ℚ) * L) :
    ((calculateDetailedSplits tbl be R b L (generateLapBoundaries R lapLen)
        recs0).1.map LapSplit.lapDistance).sum = R.totalDistance
    ∧ ((calculateDetailedSplits tbl be R b L (generateLapBoundaries R lapLen)
        recs0).1.map LapSplit.lapTime).sum
        = (calculateTotalTime tbl be R b L).1 := by
  have hq' : (0 : ℚ) < (q : ℚ) := by exact_mod_cast hq
  have hlap0 : 0 < lapLen := by rw [hlen]; exact mul_pos hq' hL
  have hD0 : (0 : ℚ) ≤ R.totalDistance := by
    rw [hD]; exact mul_nonneg (Nat.cast_nonneg p) hL.le
  have hgen : generateLapBoundaries R lapLen
      = (List.range ((⌈R.totalDistance / lapLen⌉).toNat + 1)).map
          (fun i : ℕ =>
            (⟨i, min ((i : ℚ) * lapLen) R.totalDistance,
              R.elevationAt (min ((i : ℚ) * lapLen) R.totalDistance)⟩ :
              LapBoundary)) := rfl
  have hmul : ∀ i : ℕ,
      min ((i : ℚ) * lapLen) R.totalDistance
        = ((min (i * q) p : ℕ) : ℚ) * L := by
    intro i
    rw [hlen, hD, Nat.cast_min]
    push_cast
    rw [min_mul_of_nonneg _ _ hL.le, mul_assoc]
  have hmono : ∀ i : ℕ,
      min ((i : ℚ) * lapLen) R.totalDistance
        ≤ min (((i + 1 : ℕ) : ℚ) * lapLen) R.totalDistance := by
    intro i
    apply min_le_min _ le_rfl
    push_cast
    nlinarith [hlap0]
  have hlast :
      min (((⌈R.totalDistance / lapLen⌉).toNat : ℚ) * lapLen)
        R.totalDistance = R.totalDistance := by
    apply min_eq_right
    have hns : numSegs 0 R.totalDistance lapLen
        = (⌈R.totalDistance / lapLen⌉).toNat := by
      unfold numSegs; rw [sub_zero]
    have hle := le_numSegs_mul hlap0 hD0
    rw [hns] at hle
    linarith
  have h := splits_partition_sums tbl be R b L
    (fun i : ℕ =>
      (⟨i, min ((i : ℚ) * lapLen) R.totalDistance,
        R.elevationAt (min ((i : ℚ) * lapLen) R.totalDistance)⟩ : LapBoundary))
    ((⌈R.totalDistance / lapLen⌉).toNat) recs0 hL
    (by
      show min (((0 : ℕ) : ℚ) * lapLen) R.totalDistance = 0
      rw [Nat.cast_zero, zero_mul]
      exact min_eq_left hD0)
    (fun i _ => ⟨min (i * q) p, hmul i⟩)
    (fun i _ => hmono i)
  unfold calculateDetailedSplits
  rw [hgen]
  refine ⟨?_, ?_⟩
  · rw [h.1]
    exact hlast
  · rw [h.2]
    exact congrArg (fun x => integrateTime tbl be R b 0 x L) hlast

set_option maxRecDepth 8000 in
/-- Claim C7, counterexample: on the 1700 m route with the one-mile lap
interval (1609.344 m, not a multiple of the 50 m integration step), the
lap distances still sum to the total distance, but the lap times do NOT
sum to the solver result's predicted time within a 1e-6 tolerance: each
lap re-integration restarts its own 50 m grid at the lap boundary, so the
grid cells disagree with the whole-route integration's cells. -/
theorem C7_counterexample :
    (calculateLapSplits (mkSolver 0) modelTable route1700 (850/3) "1mile"
        50).isSome = true
    ∧ (((calculateLapSplits (mkSolver 0) modelTable route1700 (850/3) "1mile"
        50).getD (⟨0, 0, 0, false, 0, [], 0, []⟩, [], mkSolver 0)).2.1.map
          LapSplit.lapDistance).sum = route1700.totalDistance
    ∧ ¬ |(((calculateLapSplits (mkSolver 0) modelTable route1700 (850/3)
            "1mile" 50).getD
            (⟨0, 0, 0, false, 0, [], 0, []⟩, [], mkSolver 0)).2.1.map
              LapSplit.lapTime).sum
        - ((calculateLapSplits (mkSolver 0) modelTable route1700 (850/3)
            "1mile" 50).getD
            (⟨0, 0, 0, false, 0, [], 0, []⟩, [], mkSolver 0)).1.predictedTime|
      ≤ 1/1000000 := by
  have hval : (((calculateLapSplits (mkSolver 0) modelTable route1700 (850/3)
            "1mile" 50).getD
            (⟨0, 0, 0, false, 0, [], 0, []⟩, [], mkSolver 0)).2.1.map
              LapSplit.lapTime).sum
        - ((calculateLapSplits (mkSolver 0) modelTable route1700 (850/3)
            "1mile" 50).getD
            (⟨0, 0, 0, false, 0, [], 0, []⟩, [], mkSolver 0)).1.predictedTime
      = -3972143900461681594384109065082161/693034962750971317291259765625000000 := by
    with_unfolding_all rfl
  refine ⟨by with_unfolding_all rfl, by with_unfolding_all rfl, ?_⟩
  rw [hval, abs_of_nonpos (by norm_num)]
  norm_num

/-- Witness for the amended C7: with 400 m laps (8 integration steps) on
the 1700 m route (34 integration steps) the alignment hypotheses hold and
the splits partition the route exactly. -/
theorem C7_witness :
    (0 : ℚ) < 50 ∧ 0 < 8
    ∧ (400 : ℚ) = ((8 : ℕ) : ℚ) * 50
    ∧ route1700.totalDistance = ((34 : ℕ) : ℚ) * 50
    ∧ (((calculateDetailedSplits modelTable 0 route1700 6 50
          (generateLapBoundaries route1700 400) []).1.map
            LapSplit.lapDistance).sum = route1700.totalDistance
      ∧ ((calculateDetailedSplits modelTable 0 route1700 6 50
          (generateLapBoundaries route1700 400) []).1.map
            LapSplit.lapTime).sum
          = (calculateTotalTime modelTable 0 route1700 6 50).1) :=
  ⟨by norm_num, by norm_num, by norm_num,
   by show (1700 : ℚ) = ((34 : ℕ) : ℚ) * 50; norm_num,
   C7_lap_partition_aligned modelTable 0 route1700 6 50 400 8 34 []
     (by norm_num) (by norm_num) (by norm_num)
     (by show (1700 : ℚ) = ((34 : ℕ) : ℚ) * 50; norm_num)⟩

/-! ## Claim C8 -/

/-- Evaluation of `List.find?` on the four-element index list: hit at 0. -/
lemma find?_four_zero {P : ℕ → Bool} (h0 : P 0 = true) :
    List.find? P [0, 1, 2, 3] = some 0 :=
  List.find?_cons_of_pos _ h0

/-- Evaluation of `List.find?` on the four-element index list: hit at 1. -/
lemma find?_four_one {P : ℕ → Bool} (h0 : ¬P 0 = true) (h1 : P 1 = true) :
    List.find? P [0, 1, 2, 3] = some 1 :=
  (List.find?_cons_of_neg _ h0).trans (List.find?_cons_of_pos _ h1)

/-- Evaluation of `List.find?` on the four-element index list: hit at 2. -/
lemma find?_four_two {P : ℕ → Bool} (h0 : ¬P 0 = true) (h1 : ¬P 1 = true)
    (h2 : P 2 = true) : List.find? P [0, 1, 2, 3] = some 2 :=
  (List.find?_cons_of_neg _ h0).trans
    ((List.find?_cons_of_neg _ h1).trans (List.find?_cons_of_pos _ h2))

/-- Evaluation of `List.find?` on the four-element index list: hit at 3. -/
lemma find?_four_three {P : ℕ → Bool} (h0 : ¬P 0 = true) (h1 : ¬P 1 = true)
    (h2 : ¬P 2 = true) (h3 : P 3 = true) :
    List.find? P [0, 1, 2, 3] = some 3 :=
  (List.find?_cons_of_neg _ h0).trans
    ((List.find?_cons_of_neg _ h1).trans
      ((List.find?_cons_of_neg _ h2).trans (List.find?_cons_of_pos _ h3)))

/-- For an in-range speed, the bracketing scan of `lookupSpeed` over
`modelTable`'s speed column lands in one of the four unit brackets. -/
lemma bracketIdx_modelTable (b : ℚ) (h2 : 2 ≤ b) (h6 : b ≤ 6) :
    (bracketIdx [2, 3, 4, 5, 6] b = 0 ∧ 2 ≤ b ∧ b ≤ 3)
    ∨ (bracketIdx [2, 3, 4, 5, 6] b = 1 ∧ 3 ≤ b ∧ b ≤ 4)
    ∨ (bracketIdx [2, 3, 4, 5, 6] b = 2 ∧ 4 ≤ b ∧ b ≤ 5)
    ∨ (bracketIdx [2, 3, 4, 5, 6] b = 3 ∧ 5 ≤ b ∧ b ≤ 6) := by
  have hp : ∀ i : ℕ, ([2, 3, 4, 5, 6] : List ℚ).getD i 0 ≤ b
      → b ≤ ([2, 3, 4, 5, 6] : List ℚ).getD (i + 1) 0
      → (fun i => decide (([2, 3, 4, 5, 6] : List ℚ).getD i 0 ≤ b
          ∧ b ≤ ([2, 3, 4, 5, 6] : List ℚ).getD (i + 1) 0)) i = true :=
    fun i hlo hhi => decide_eq_true ⟨hlo, hhi⟩
  have hn : ∀ i : ℕ, ¬ b ≤ ([2, 3, 4, 5, 6] : List ℚ).getD (i + 1) 0
      → ¬ ((fun i => decide (([2, 3, 4, 5, 6] : List ℚ).getD i 0 ≤ b
          ∧ b ≤ ([2, 3, 4, 5, 6] : List ℚ).getD (i + 1) 0)) i = true) :=
    fun i hhi hc => hhi (of_decide_eq_true hc).2
  by_cases h3 : b ≤ 3
  · refine Or.inl ⟨?_, h2, h3⟩
    unfold bracketIdx
    rw [show List.range (([2, 3, 4, 5, 6] : List ℚ).length - 1) = [0, 1, 2, 3]
      from rfl]
    rw [find?_four_zero (hp 0 h2 h3)]
    rfl
  · by_cases h4 : b ≤ 4
    · refine Or.inr (Or.inl ⟨?_, le_of_lt (lt_of_not_le h3), h4⟩)
      unfold bracketIdx
      rw [show List.range (([2, 3, 4, 5, 6] : List ℚ).length - 1) = [0, 1, 2, 3]
        from rfl]
      rw [find?_four_one (hn 0 h3) (hp 1 (le_of_lt (lt_of_not_le h3)) h4)]
      rfl
    · by_cases h5 : b ≤ 5
      · refine Or.inr (Or.inr (Or.inl ⟨?_, le_of_lt (lt_of_not_le h4), h5⟩))
        unfold bracketIdx
        rw [show List.range (([2, 3, 4, 5, 6] : List ℚ).length - 1)
          = [0, 1, 2, 3] from rfl]
        rw [find?_four_two (hn 0 h3) (hn 1 h4)
          (hp 2 (le_of_lt (lt_of_not_le h4)) h5)]
        rfl
      · refine Or.inr (Or.inr (Or.inr ⟨?_, le_of_lt (lt_of_not_le h5), h6⟩))
        unfold bracketIdx
        rw [show List.range (([2, 3, 4, 5, 6] : List ℚ).length - 1)
          = [0, 1, 2, 3] from rfl]
        rw [find?_four_three (hn 0 h3) (hn 1 h4) (hn 2 h5)
          (hp 3 (le_of_lt (lt_of_not_le h5)) h6)]
        rfl

/-- On `modelTable` the flat-cost lookup (with its out-of-range default 4)
always yields 4: the cost column is constant 4. -/
lemma lookupSpeed_modelTable_cost (b : ℚ) :
    (lookupSpeed modelTable b .energy_j_kg_m).getD 4 = 4 := by
  show (if b < 2 ∨ b > 6 then (none : Option ℚ) else _).getD 4 = 4
  by_cases hout : b < 2 ∨ b > 6
  · rw [if_pos hout]
    rfl
  · rw [if_neg hout]
    rw [show modelTable.speed_m_s = ([2, 3, 4, 5, 6] : List ℚ) from rfl]
    push_neg at hout
    obtain ⟨h2, h6⟩ := hout
    rcases bracketIdx_modelTable b h2 h6 with ⟨hi, -, -⟩ | ⟨hi, -, -⟩ |
      ⟨hi, -, -⟩ | ⟨hi, -, -⟩
    · rw [hi]
      show (4 : ℚ) + (4 - 4) * ((b - 2) / (3 - 2)) = 4
      ring
    · rw [hi]
      show (4 : ℚ) + (4 - 4) * ((b - 3) / (4 - 3)) = 4
      ring
    · rw [hi]
      show (4 : ℚ) + (4 - 4) * ((b - 4) / (5 - 4)) = 4
      ring
    · rw [hi]
      show (4 : ℚ) + (4 - 4) * ((b - 5) / (6 - 5)) = 4
      ring

/-- On `modelTable` the metabolic-power lookup (with the default
`flatCr · b = 4b`) always yields `4b`: the power column is `4 × speed`
and interpolation is exact on a linear column. -/
lemma lookupSpeed_modelTable_power (b : ℚ) :
    (lookupSpeed modelTable b .energy_j_kg_s).getD (4 * b) = 4 * b := by
  show (if b < 2 ∨ b > 6 then (none : Option ℚ) else _).getD (4 * b) = 4 * b
  by_cases hout : b < 2 ∨ b > 6
  · rw [if_pos hout]
    rfl
  · rw [if_neg hout]
    rw [show modelTable.speed_m_s = ([2, 3, 4, 5, 6] : List ℚ) from rfl]
    push_neg at hout
    obtain ⟨h2, h6⟩ := hout
    rcases bracketIdx_modelTable b h2 h6 with ⟨hi, -, -⟩ | ⟨hi, -, -⟩ |
      ⟨hi, -, -⟩ | ⟨hi, -, -⟩
    · rw [hi]
      show (8 : ℚ) + (12 - 8) * ((b - 2) / (3 - 2)) = 4 * b
      ring
    · rw [hi]
      show (12 : ℚ) + (16 - 12) * ((b - 3) / (4 - 3)) = 4 * b
      ring
    · rw [hi]
      show (16 : ℚ) + (20 - 16) * ((b - 4) / (5 - 4)) = 4 * b
      ring
    · rw [hi]
      show (20 : ℚ) + (24 - 20) * ((b - 5) / (6 - 5)) = 4 * b
      ring

/-- The Minetti excess cost vanishes on level ground. -/
lemma calcDeltaEC_zero : calcDeltaEC 0 = 0 := by
  unfold calcDeltaEC
  norm_num

/-- On `modelTable` at grade 0 the grade-adjusted speed is exactly the
base speed, for every base speed (both branches reduce to `b`). -/
lemma calculateSpeedOnGrade_modelTable_flat (b : ℚ) :
    calculateSpeedOnGrade modelTable b 0 = b := by
  rw [calculateSpeedOnGrade_eq, lookupSpeed_modelTable_cost,
    lookupSpeed_modelTable_power, calcDeltaEC_zero, add_zero]
  rw [show (4 : ℚ) * b / 4 = b by ring]
  split_ifs with h
  · rw [show max (-(1/2 : ℚ)) (min (4/5) (0 * 10)) = 0 by norm_num]
    ring
  · rfl

/-- At grade 0, segment elevation 0 and baseline 0, `applyGAPAdjustment`
over `modelTable` returns the base speed unchanged. -/
lemma applyGAPAdjustment_modelTable_flat_fst (b : ℚ) (sS sE : Option ℚ) :
    (applyGAPAdjustment modelTable 0 b 0 0 sS sE).1 = b := by
  rw [applyGAPAdjustment_fst, if_neg (by norm_num : ¬(0 : ℚ) < -(2/25))]
  rw [calculateSpeedOnGrade_modelTable_flat]
  rw [show calculateAltitudePenalty 0 0 = 1 by
    unfold calculateAltitudePenalty; norm_num]
  exact div_one b

/-- A flat route's average grade is 0 on every span. -/
lemma flatRoute_avgGrade (D s e : ℚ) : (flatRoute D).avgGrade s e = 0 := by
  show (0 : ℚ) / D = 0
  exact zero_div D

/-- A flat route's average elevation is 0 on every span. -/
lemma flatRoute_avgElevation (D s e : ℚ) :
    (flatRoute D).avgElevation s e = 0 := by
  show (0 : ℚ) + 0 * (s + e) / (2 * D) = 0
  rw [zero_mul, zero_div, add_zero]

/-- On a flat route over `modelTable` every sub-segment runs at exactly
the base speed. -/
lemma segSpeed_flat (D b : ℚ) (seg : ℚ × ℚ) :
    segSpeed modelTable 0 (flatRoute D) b seg = b := by
  unfold segSpeed
  rw [flatRoute_avgGrade, flatRoute_avgElevation]
  exact applyGAPAdjustment_modelTable_flat_fst b (some seg.1) (some seg.2)

/-- Dividing each summand by a constant divides the sum. -/
lemma sum_div_list (l : List (ℚ × ℚ)) (b : ℚ) :
    (l.map fun seg => (seg.2 - seg.1) / b).sum
      = (l.map fun seg => seg.2 - seg.1).sum / b := by
  induction l with
  | nil => simp
  | cons a t ih => simp [ih, add_div]

/-- On a flat route of length `D` over `modelTable` the predicted total
time at base speed `b` is exactly `D / b`. -/
lemma calculateTotalTime_flat (D b L : ℚ) (hL : 0 < L) (hD : 0 ≤ D) :
    (calculateTotalTime modelTable 0 (flatRoute D) b L).1 = D / b := by
  have h1 : (calculateTotalTime modelTable 0 (flatRoute D) b L).1
      = integrateTime modelTable 0 (flatRoute D) b 0 D L := rfl
  rw [h1]
  unfold integrateTime
  have hcong : ((segmentBounds 0 D L).map fun seg =>
      (seg.2 - seg.1) / segSpeed modelTable 0 (flatRoute D) b seg)
      = (segmentBounds 0 D L).map fun seg => (seg.2 - seg.1) / b := by
    apply List.map_congr_left
    intro seg _
    rw [segSpeed_flat]
  rw [hcong, sum_div_list, segmentBounds_sum_lengths hL hD, sub_zero]

/-- `selectBasePace` when both scrutinees are populated. -/
lemma selectBasePace_eq (s : SolverState) (b : ℚ) (last : ConvergenceStep)
    (hb : s.bestError = some b) (hl : s.history.getLast? = some last) :
    selectBasePace s
      = if |b| < |last.error| then s.bestPace else s.basePaceMs := by
  unfold selectBasePace
  rw [hb, hl]

/-- On a flat route over `modelTable` the solver solves exactly on its
first iterate: the naive average pace `D / T` reproduces the goal time
with error 0, the loop breaks immediately, and the returned base pace is
exactly `D / T`. -/
lemma findBasePace_flat (D T L : ℚ) (hL : 0 < L) (hD : 0 < D) (hT : 0 < T) :
    (findBasePaceForGoalTime (mkSolver 0) modelTable (flatRoute D) T
        L).1.basePaceMs = D / T := by
  have hD' : D ≠ 0 := hD.ne'
  have hT' : T ≠ 0 := hT.ne'
  have hv0 : paceToSpeed (T / 60 / ((flatRoute D).totalDistance / 1000))
      = D / T := by
    show (1000 : ℚ) / (T / 60 / (D / 1000) * 60) = D / T
    field_simp
    ring
  have hbase : (solverInit (flatRoute D) T).basePaceMs
      = paceToSpeed (T / 60 / ((flatRoute D).totalDistance / 1000)) := rfl
  have hpred : (calculateTotalTime modelTable 0 (flatRoute D)
      (solverInit (flatRoute D) T).basePaceMs L).1 = T := by
    rw [hbase, hv0, calculateTotalTime_flat D (D / T) L hL hD.le,
      div_div_eq_mul_div, mul_comm, mul_div_assoc, div_self hD', mul_one]
  have herr : (solverStep modelTable 0 (flatRoute D) T L
      (solverInit (flatRoute D) T)).2 = 0 := by
    rw [solverStep_snd, hpred, sub_self]
  have hloop : solverLoop modelTable 0 (flatRoute D) T L 1 20
      (solverInit (flatRoute D) T)
      = (solverStep modelTable 0 (flatRoute D) T L
          (solverInit (flatRoute D) T)).1 := by
    rw [show (20 : ℕ) = 19 + 1 from rfl, solverLoop_succ, herr]
    rw [if_pos (by norm_num : |(0 : ℚ)| ≤ 1)]
  obtain ⟨hbe, hbp⟩ := @solverStep_best_none modelTable 0 (flatRoute D) T L
    (solverInit (flatRoute D) T) rfl
  have hlast : (solverStep modelTable 0 (flatRoute D) T L
      (solverInit (flatRoute D) T)).1.history.getLast?
      = some ⟨(solverInit (flatRoute D) T).iteration,
          speedToPace (solverInit (flatRoute D) T).basePaceMs,
          (calculateTotalTime modelTable 0 (flatRoute D)
            (solverInit (flatRoute D) T).basePaceMs L).1,
          (calculateTotalTime modelTable 0 (flatRoute D)
            (solverInit (flatRoute D) T).basePaceMs L).1 - T,
          ((calculateTotalTime modelTable 0 (flatRoute D)
            (solverInit (flatRoute D) T).basePaceMs L).1 - T) / T * 100⟩ := by
    rw [solverStep_fst_history]
    exact List.getLast?_concat _
  have h1 : (findBasePaceForGoalTime (mkSolver 0) modelTable (flatRoute D) T
      L).1.basePaceMs
      = selectBasePace (solverLoop modelTable 0 (flatRoute D) T L 1 20
          (solverInit (flatRoute D) T)) := rfl
  rw [h1, hloop, selectBasePace_eq _ _ _ hbe hlast, hbp,
    solverStep_fst_basePaceMs, ite_self, hbase, hv0]

/-- **C8** (exact-solve regime): on a flat route over `modelTable` the
solved base-pace speed is `D / T`, which is antitone in the goal time. -/
theorem C8_flat_route_antitone (D L T1 T2 : ℚ) (hL : 0 < L) (hD : 0 < D)
    (h1 : 0 < T1) (h12 : T1 ≤ T2) :
    (findBasePaceForGoalTime (mkSolver 0) modelTable (flatRoute D) T2
        L).1.basePaceMs
      ≤ (findBasePaceForGoalTime (mkSolver 0) modelTable (flatRoute D) T1
        L).1.basePaceMs := by
  rw [findBasePace_flat D T1 L hL hD h1,
    findBasePace_flat D T2 L hL hD (lt_of_lt_of_le h1 h12)]
  exact div_le_div_of_nonneg_left hD.le h1 h12

set_option maxRecDepth 4000 in
/-- Claim C8, counterexample: on the gentle 1% uphill route `routeC8`,
goal time T1 sits exactly at the 1 s tolerance threshold (the naive first
iterate converges, returning `100 / T1`), while the barely larger
T2 = T1 + 0.1 misses tolerance and triggers one upward proportional
adjustment — so the solved speed for the LARGER goal time is strictly
greater, violating antitonicity. -/
theorem C8_counterexample :
    (4064000000000000/202849787231499 : ℚ)
        < 4064000000000000/202849787231499 + 1/10
    ∧ (findBasePaceForGoalTime (mkSolver 0) modelTable routeC8
        (4064000000000000/202849787231499) 50).1.basePaceMs
      < (findBasePaceForGoalTime (mkSolver 0) modelTable routeC8
        (4064000000000000/202849787231499 + 1/10) 50).1.basePaceMs := by
  have ha : (findBasePaceForGoalTime (mkSolver 0) modelTable routeC8
      (4064000000000000/202849787231499) 50).1.basePaceMs
      = 202849787231499/40640000000000 := by
    with_unfolding_all rfl
  have hb : (findBasePaceForGoalTime (mkSolver 0) modelTable routeC8
      (4064000000000000/202849787231499 + 1/10) 50).1.basePaceMs
      = 1689911106797488286735017787001/331970683070617623872000000000 := by
    with_unfolding_all rfl
  refine ⟨by norm_num, ?_⟩
  rw [ha, hb]
  norm_num

/-- Witness for the amended C8 on a concrete flat 1000 m route with goal
times 200 s ≤ 300 s. -/
theorem C8_witness :
    (0 : ℚ) < 50 ∧ (0 : ℚ) < 1000 ∧ (0 : ℚ) < 200 ∧ (200 : ℚ) ≤ 300
    ∧ (findBasePaceForGoalTime (mkSolver 0) modelTable (flatRoute 1000) 300
        50).1.basePaceMs
      ≤ (findBasePaceForGoalTime (mkSolver 0) modelTable (flatRoute 1000) 200
        50).1.basePaceMs :=
  ⟨by norm_num, by norm_num, by norm_num, by norm_num,
   C8_flat_route_antitone 1000 50 200 300 (by norm_num) (by norm_num)
     (by norm_num) (by norm_num)⟩

end FitnessTracker
